import Mathlib

/-!
Verification of the eulr 2D Eulerian fluid solver (src/sim.rs) against its
specification.  The solver state and every algorithm the claims mention are
shallowly embedded below: `f64` values become exact rationals, the mutable
`Simulation` struct becomes a record threaded through explicit folds, and the
panicking classification probe `Simulation::s` becomes an `Option`-valued
function (`none` = panic).  The grid container `Array2D` lives in `util.rs`,
which is not part of the provided sources; it is modelled from the spec
(dense row-major storage, bounds-checked indexing, constant fill, circular
stamping, deep copy).
-/

set_option maxRecDepth 4000

namespace Eulr

/-- Modelled from the spec: `Array2D` (util.rs, absent from the sources) is a
dense 2D numeric container with row-major flat storage and bounds-checked
indexing.  `get` reads the flat buffer (all reads performed by the solver are
in bounds for well-shaped states). -/
structure Array2D where
  width : Nat
  height : Nat
  data : List ℚ
  deriving DecidableEq, Repr

namespace Array2D

/-- Read cell (x, y); row-major flat index.  Modelled from the spec. -/
def get (a : Array2D) (x y : Nat) : ℚ :=
  a.data.getD (y * a.width + x) 0

/-- Write cell (x, y) assuming it is in range (every solver write site is).
Modelled from the spec. -/
def set (a : Array2D) (x y : Nat) (val : ℚ) : Array2D :=
  ⟨a.width, a.height, a.data.set (y * a.width + x) val⟩

/-- Bounds-checked write: out-of-range indexing of the container is fatal
(`none`).  Modelled from the spec: the container has range checks. -/
def setChecked (a : Array2D) (x y : Nat) (val : ℚ) : Option Array2D :=
  if x < a.width ∧ y < a.height then some (a.set x y val) else none

/-- Fresh zero-filled container, as `Array2D::new`.  Modelled from the spec. -/
def new (w h : Nat) : Array2D :=
  ⟨w, h, List.replicate (w * h) 0⟩

/-- Constant-filled container, as `Array2D::fill`.  Modelled from the spec. -/
def fill (val : ℚ) (w h : Nat) : Array2D :=
  ⟨w, h, List.replicate (w * h) val⟩

/-- Zero out every cell, as `Array2D::zero`.  Modelled from the spec. -/
def zero (a : Array2D) : Array2D :=
  ⟨a.width, a.height, List.replicate (a.width * a.height) 0⟩

/-- Circular-region stamping, as `Array2D::fill_circle`: set every cell whose
center lies within `r` of (cx, cy) to `val`.  Modelled from the spec. -/
def fillCircle (a : Array2D) (cx cy : ℤ) (r : ℚ) (val : ℚ) : Array2D :=
  ⟨a.width, a.height,
    (List.range (a.width * a.height)).map fun k =>
      let x : ℤ := (k % a.width : Nat)
      let y : ℤ := (k / a.width : Nat)
      if ((x : ℚ) - (cx : ℚ)) ^ 2 + ((y : ℚ) - (cy : ℚ)) ^ 2 ≤ r ^ 2 then val
      else a.data.getD k 0⟩

end Array2D

/-- sim.rs line 2. -/
def EPSILON : ℚ := 1 / 100000000000

/-- sim.rs line 18 (1.94). -/
def OVERRELAXATION_FACTOR : ℚ := 97 / 50

/-- sim.rs line 19. -/
def NUM_PROJ_ITERATIONS : Nat := 100

/-- sim.rs line 20 (7.2). -/
def GRAVITY : ℚ := 36 / 5

/-- sim.rs line 21. -/
def DENSITY : ℚ := 10

/-- sim.rs line 22. -/
def WINDSPEED : ℚ := 10

/-- sim.rs line 23. -/
def BAND_WIDTH : Nat := 5

/-- sim.rs line 24. -/
def NUM_BANDS : Nat := 9

/-- sim.rs line 25 (0.22). -/
def DT : ℚ := 11 / 50

/-- sim.rs line 26 (0.4). -/
def H : ℚ := 2 / 5

/-- sim.rs line 28. -/
def FLUID : ℚ := 1

/-- sim.rs line 29. -/
def SOLID : ℚ := -EPSILON

/-- sim.rs line 15. -/
def DRAW_OBSTACLE : Bool := false

/-- sim.rs line 16. -/
def WITH_GRAVITY : Bool := false

/-- The solver state, sim.rs lines 5-14. -/
structure Simulation where
  width : Nat
  height : Nat
  u : Array2D
  v : Array2D
  s : Array2D
  p : Array2D
  smoke : Array2D
  deriving DecidableEq, Repr

/-- Option-valued fold: the loop body may hit a fatal condition. -/
def foldOption (f : α → β → Option α) : α → List β → Option α
  | a, [] => some a
  | a, b :: bs => (f a b).bind fun a' => foldOption f a' bs

/-- Iterate an Option-valued transformation n times. -/
def iterOption (f : α → Option α) : Nat → α → Option α
  | 0, a => some a
  | n + 1, a => (f a).bind fun a' => iterOption f n a'

namespace Simulation

/-- The classification probe `Simulation::s`, sim.rs lines 137-148.
`none` models the panic branch. -/
def sProbe (sim : Simulation) (x y : ℤ) : Option ℚ :=
  if 0 ≤ x ∧ 0 ≤ y ∧ x < (sim.width : ℤ) ∧ y < (sim.height : ℤ) then
    some (sim.s.get x.toNat y.toNat)
  else if x = -1 ∨ x = (sim.width : ℤ) ∨ y = -1 ∨ y = (sim.height : ℤ) then
    some SOLID
  else
    none

/-- `Simulation::open_u`, sim.rs lines 150-152 (with Rust's short-circuit
evaluation of `&&`). -/
def open_u (sim : Simulation) (x y : ℤ) : Option Bool :=
  (sim.sProbe x y).bind fun a =>
    if a = FLUID then (sim.sProbe (x - 1) y).map fun b => decide (b = FLUID)
    else some false

/-- `Simulation::open_v`, sim.rs lines 153-155. -/
def open_v (sim : Simulation) (x y : ℤ) : Option Bool :=
  (sim.sProbe x y).bind fun a =>
    if a = FLUID then (sim.sProbe x (y - 1)).map fun b => decide (b = FLUID)
    else some false

/-- `Simulation::avg_u`, sim.rs lines 157-159 (callers guarantee y ≥ 1). -/
def avg_u (sim : Simulation) (x y : Nat) : ℚ :=
  (sim.u.get x (y - 1) + sim.u.get x y + sim.u.get (x + 1) (y - 1) +
    sim.u.get (x + 1) y) * (1 / 4)

/-- `Simulation::avg_v`, sim.rs lines 160-162 (callers guarantee x ≥ 1). -/
def avg_v (sim : Simulation) (x y : Nat) : ℚ :=
  (sim.v.get (x - 1) y + sim.v.get x y + sim.v.get (x - 1) (y + 1) +
    sim.v.get x (y + 1)) * (1 / 4)

/-- The bilinear sampler generated by `create_sample_method!`, sim.rs lines
31-56, parameterized by the field and its staggering offset (the macro
expands to one copy of this body per field). -/
def sampleField (sim : Simulation) (f : Array2D) (dx dy : ℚ) (xIn yIn : ℚ) : ℚ :=
  let x := max H (min xIn ((sim.width : ℚ) * H))
  let y := max H (min yIn ((sim.height : ℚ) * H))
  let x0 := min (Int.toNat ⌊(x - dx) / H⌋) (sim.width - 1)
  let tx := ((x - dx) - (x0 : ℚ) * H) / H
  let x1 := min (x0 + 1) (sim.width - 1)
  let y0 := min (Int.toNat ⌊(y - dy) / H⌋) (sim.height - 1)
  let ty := ((y - dy) - (y0 : ℚ) * H) / H
  let y1 := min (y0 + 1) (sim.height - 1)
  let sx := 1 - tx
  let sy := 1 - ty
  sx * sy * f.get x0 y0 + tx * sy * f.get x1 y0 + tx * ty * f.get x1 y1 +
    sx * ty * f.get x0 y1

/-- `sample_u`, sim.rs line 164. -/
def sample_u (sim : Simulation) (x y : ℚ) : ℚ :=
  sim.sampleField sim.u 0 (H / 2) x y

/-- `sample_v`, sim.rs line 165. -/
def sample_v (sim : Simulation) (x y : ℚ) : ℚ :=
  sim.sampleField sim.v (H / 2) 0 x y

/-- `sample_smoke`, sim.rs line 166. -/
def sample_smoke (sim : Simulation) (x y : ℚ) : ℚ :=
  sim.sampleField sim.smoke (H / 2) (H / 2) x y

/-- One cell of the projection sweep, sim.rs lines 111-132. -/
def cellProject (sim : Simulation) (dt : ℚ) (x y : Nat) : Option Simulation :=
  if sim.s.get x y ≠ FLUID then some sim
  else
    let d := OVERRELAXATION_FACTOR *
      (sim.u.get (x + 1) y - sim.u.get x y + sim.v.get x (y + 1) - sim.v.get x y)
    (sim.sProbe ((x : ℤ) - 1) (y : ℤ)).bind fun s1 =>
    (sim.sProbe ((x : ℤ) + 1) (y : ℤ)).bind fun s2 =>
    (sim.sProbe (x : ℤ) ((y : ℤ) - 1)).bind fun s3 =>
    (sim.sProbe (x : ℤ) ((y : ℤ) + 1)).bind fun s4 =>
      let sw := s1 + s2 + s3 + s4
      if sw = 0 then some sim
      else
        let u1 := sim.u.set x y (sim.u.get x y + d * s1 / sw)
        let u2 := u1.set (x + 1) y (u1.get (x + 1) y - d * s2 / sw)
        let v1 := sim.v.set x y (sim.v.get x y + d * s3 / sw)
        let v2 := v1.set x (y + 1) (v1.get x (y + 1) - d * s4 / sw)
        let p1 := sim.p.set x y (sim.p.get x y - d / sw * DENSITY * H / dt)
        some { sim with u := u2, v := v2, p := p1 }

/-- One full Gauss-Seidel sweep of `projection`, sim.rs lines 110-133:
rows outer, columns inner. -/
def sweep (sim : Simulation) (dt : ℚ) : Option Simulation :=
  foldOption
    (fun sm y =>
      foldOption (fun sm2 x => sm2.cellProject dt x y) sm (List.range sim.width))
    sim (List.range sim.height)

/-- `Simulation::projection`, sim.rs lines 107-135: zero the pressure, then
run `NUM_PROJ_ITERATIONS` sweeps. -/
def projection (sim : Simulation) (dt : ℚ) : Option Simulation :=
  iterOption (fun sm => sm.sweep dt) NUM_PROJ_ITERATIONS
    { sim with p := sim.p.zero }

/-- `Simulation::gravitation`, sim.rs lines 97-105. -/
def gravitation (sim : Simulation) (dt : ℚ) : Option Simulation :=
  (foldOption
      (fun a (y : Nat) =>
        foldOption
          (fun a2 (x : Nat) =>
            (sim.open_v (x : ℤ) (y : ℤ)).map fun b =>
              if b then a2.set x y (a2.get x y + GRAVITY * dt) else a2)
          a (List.range sim.width))
      sim.v (List.range sim.height)).map
    fun v' => { sim with v := v' }

/-- One cell of the velocity advection pass, sim.rs lines 182-204.  The state
is the pair of double buffers (new_u, new_v). -/
def advCell (sim : Simulation) (dt : ℚ) (st : Array2D × Array2D) (i j : Nat) :
    Option (Array2D × Array2D) :=
  (if 1 ≤ i ∧ i < sim.width then
      (sim.open_u (i : ℤ) (j : ℤ)).map fun b =>
        if b then
          let x := (i : ℚ) * H
          let y := (j : ℚ) * H + (1 / 2) * H
          let uu := st.1.get i j
          let vv := sim.avg_v i j
          st.1.set i j (sim.sample_u (x - dt * uu) (y - dt * vv))
        else st.1
    else some st.1).bind fun nu =>
  (if 1 ≤ j ∧ j < sim.height then
      (sim.open_v (i : ℤ) (j : ℤ)).map fun b =>
        if b then
          let x := (i : ℚ) * H + (1 / 2) * H
          let y := (j : ℚ) * H
          let vv := st.2.get i j
          let uu := sim.avg_u i j
          st.2.set i j (sim.sample_v (x - dt * uu) (y - dt * vv))
        else st.2
    else some st.2).bind fun nv =>
  some (nu, nv)

/-- `Simulation::advection`, sim.rs lines 177-209: double-buffered transport
of u and v over j in 0..=height, i in 0..=width. -/
def advection (sim : Simulation) (dt : ℚ) : Option Simulation :=
  (foldOption
      (fun st j =>
        foldOption (fun st2 i => sim.advCell dt st2 i j) st
          (List.range (sim.width + 1)))
      (sim.u, sim.v) (List.range (sim.height + 1))).map
    fun st => { sim with u := st.1, v := st.2 }

/-- One cell of the scalar advection pass, sim.rs lines 215-225. -/
def smokeCell (sim : Simulation) (dt : ℚ) (ns : Array2D) (i j : Nat) : Array2D :=
  if sim.s.get i j ≠ FLUID then ns
  else
    let uu := (1 / 2) * (sim.u.get i j + sim.u.get (i + 1) j)
    let vv := (1 / 2) * (sim.v.get i j + sim.v.get i (j + 1))
    let x := (i : ℚ) * H + (1 / 2) * H - dt * uu
    let y := (j : ℚ) * H + (1 / 2) * H - dt * vv
    ns.set i j (sim.sample_smoke x y)

/-- The value `smokeCell` writes at a FLUID cell (i, j): the prior smoke
field resampled at the back-traced cell center, sim.rs lines 219-225. -/
def smokeVal (sim : Simulation) (dt : ℚ) (i j : Nat) : ℚ :=
  sim.sample_smoke
    ((i : ℚ) * H + (1 / 2) * H - dt * ((1 / 2) * (sim.u.get i j + sim.u.get (i + 1) j)))
    ((j : ℚ) * H + (1 / 2) * H - dt * ((1 / 2) * (sim.v.get i j + sim.v.get i (j + 1))))

/-- `Simulation::smoke_advection`, sim.rs lines 211-229: double-buffered
resampling over j in 1..height, i in 1..width. -/
def smoke_advection (sim : Simulation) (dt : ℚ) : Simulation :=
  { sim with
    smoke :=
      (List.range' 1 (sim.height - 1)).foldl
        (fun a j =>
          (List.range' 1 (sim.width - 1)).foldl
            (fun a2 i => sim.smokeCell dt a2 i j) a)
        sim.smoke }

/-- `Simulation::step`, sim.rs lines 168-175. -/
def step (sim : Simulation) : Option Simulation :=
  (if WITH_GRAVITY then sim.gravitation DT else some sim).bind fun s0 =>
  (s0.projection DT).bind fun s1 =>
  (s1.advection DT).bind fun s2 =>
  some (s2.smoke_advection DT)

/-- `Simulation::new`, sim.rs lines 59-95.  The smoke band seeding is written
with bounds-checked writes and an explicit usize-underflow check on
`center - i` (a Rust usize subtraction below zero is fatal), so construction
can fail (`none`). -/
def new (width height : Nat) : Option Simulation :=
  let u := (List.range height).foldl
    (fun a y => (a.set 0 y WINDSPEED).set width y WINDSPEED)
    (Array2D.new (width + 1) height)
  let s0 := Array2D.fill FLUID width height
  let s := if DRAW_OBSTACLE then
      s0.fillCircle ((width : ℤ) / 3) ((height : ℤ) / 2) ((width : ℚ) / 7) SOLID
    else s0
  (foldOption
      (fun a y =>
        let bandSpacing := height / NUM_BANDS
        let center := bandSpacing * y + bandSpacing / 2
        foldOption
          (fun a2 i =>
            (a2.setChecked 0 (center + i) 1).bind fun a3 =>
              if i ≤ center then a3.setChecked 0 (center - i) 1 else none)
          a (List.range BAND_WIDTH))
      (Array2D.new width height) (List.range NUM_BANDS)).bind
    fun smoke =>
      some ⟨width, height, u, Array2D.new width (height + 1), s,
        Array2D.new width height, smoke⟩

/-- `Simulation::get_s`, sim.rs lines 260-262. -/
def get_s (sim : Simulation) : List ℚ :=
  sim.s.data

/-- `Simulation::draw_obstacle`, sim.rs lines 264-270. -/
def draw_obstacle (sim : Simulation) (cx cy : ℤ) (r : ℚ) : Simulation :=
  { sim with
    s := sim.s.fillCircle cx cy r SOLID
    p := sim.p.fillCircle cx cy r 0
    smoke := sim.smoke.fillCircle cx cy r 0
    u := sim.u.fillCircle cx cy (r + 1) 0
    v := sim.v.fillCircle cx cy (r + 1) 0 }

/-- `Simulation::reset`, sim.rs lines 278-280. -/
def reset (sim : Simulation) : Option Simulation :=
  Simulation.new sim.width sim.height

/-- `Simulation::reset_except_walls`, sim.rs lines 272-276. -/
def reset_except_walls (sim : Simulation) : Option Simulation :=
  (sim.reset).map fun fresh => { fresh with s := sim.s }

end Simulation

/-- Shape invariants tying the five field buffers to the grid dimensions
(established by construction, sim.rs lines 59-95). -/
def validShapes (sim : Simulation) : Prop :=
  1 ≤ sim.width ∧ 1 ≤ sim.height ∧
  sim.u.width = sim.width + 1 ∧ sim.u.height = sim.height ∧
  sim.u.data.length = (sim.width + 1) * sim.height ∧
  sim.v.width = sim.width ∧ sim.v.height = sim.height + 1 ∧
  sim.v.data.length = sim.width * (sim.height + 1) ∧
  sim.s.width = sim.width ∧ sim.s.height = sim.height ∧
  sim.s.data.length = sim.width * sim.height ∧
  sim.p.width = sim.width ∧ sim.p.height = sim.height ∧
  sim.p.data.length = sim.width * sim.height ∧
  sim.smoke.width = sim.width ∧ sim.smoke.height = sim.height ∧
  sim.smoke.data.length = sim.width * sim.height

instance (sim : Simulation) : Decidable (validShapes sim) := by
  unfold validShapes; infer_instance

/-- The public operations of the engine (sim.rs; `step`, `draw_obstacle`,
`reset`, `reset_except_walls`). -/
inductive SimOp where
  | step : SimOp
  | stamp : ℤ → ℤ → ℚ → SimOp
  | reset : SimOp
  | resetWalls : SimOp

/-- Run a sequence of public operations. -/
def runOps (sim : Simulation) : List SimOp → Option Simulation
  | [] => some sim
  | op :: ops =>
    (match op with
      | SimOp.step => sim.step
      | SimOp.stamp cx cy r => some (sim.draw_obstacle cx cy r)
      | SimOp.reset => sim.reset
      | SimOp.resetWalls => sim.reset_except_walls).bind
      fun sim' => runOps sim' ops

/-! ## Spec-side description of the projection pass (claim C1)

The claim describes the pass as: zero the pressure, then a fixed number of
full sweeps visiting cells in row-major order, each FLUID cell receiving the
stated divergence/weight computation and in-place updates.  The following
definitions transcribe that description; the C1 theorem proves them equal to
the source-side `Simulation.projection`. -/

namespace ProjSpec

/-- All grid cells in row-major order (rows scanned one by one). -/
def specCells (w h : Nat) : List (Nat × Nat) :=
  (List.range h).flatMap fun y => (List.range w).map fun x => (x, y)

/-- The per-cell action described by the claim: FLUID cells get divergence
`d`, neighbor weights s1..s4 as the raw classify values of the left, right,
below and above neighbors, are skipped when s1+s2+s3+s4 = 0, and otherwise
receive the five in-place updates; non-FLUID cells are untouched. -/
def specProjCell (dt : ℚ) (sim : Simulation) (c : Nat × Nat) : Option Simulation :=
  let x := c.1
  let y := c.2
  if sim.s.get x y = FLUID then
    (sim.sProbe ((x : ℤ) - 1) (y : ℤ)).bind fun s1 =>
    (sim.sProbe ((x : ℤ) + 1) (y : ℤ)).bind fun s2 =>
    (sim.sProbe (x : ℤ) ((y : ℤ) - 1)).bind fun s3 =>
    (sim.sProbe (x : ℤ) ((y : ℤ) + 1)).bind fun s4 =>
      if s1 + s2 + s3 + s4 = 0 then some sim
      else
        let d := OVERRELAXATION_FACTOR *
          (sim.u.get (x + 1) y - sim.u.get x y + sim.v.get x (y + 1) -
            sim.v.get x y)
        let sw := s1 + s2 + s3 + s4
        let u1 := sim.u.set x y (sim.u.get x y + d * s1 / sw)
        let u2 := u1.set (x + 1) y (u1.get (x + 1) y - d * s2 / sw)
        let v1 := sim.v.set x y (sim.v.get x y + d * s3 / sw)
        let v2 := v1.set x (y + 1) (v1.get x (y + 1) - d * s4 / sw)
        let p1 := sim.p.set x y (sim.p.get x y - d / sw * DENSITY * H / dt)
        some { sim with u := u2, v := v2, p := p1 }
  else some sim

/-- One full sweep in row-major order. -/
def specSweep (dt : ℚ) (sim : Simulation) : Option Simulation :=
  foldOption (specProjCell dt) sim (specCells sim.width sim.height)

/-- The claim's description of the whole pass. -/
def specProjection (sim : Simulation) (dt : ℚ) : Option Simulation :=
  iterOption (specSweep dt) NUM_PROJ_ITERATIONS { sim with p := sim.p.zero }

end ProjSpec

/-! ## Claim-side instrumented probe (claim C6)

Claim C6 asserts not only that the probe's panic branch is unreachable, but
that every internal call keeps both coordinates inside the one-cell margin
box [-1, width] × [-1, height] with at most one coordinate on the margin.
`MarginSpec` transcribes that call contract: `sProbeStrict` refuses (returns
`none` for) any probe outside the claimed region, and the pipeline below is
the solver with every probe replaced by the strict one.  The C6 theorem
shows the strict pipeline succeeds and agrees with the source pipeline. -/

namespace MarginSpec

/-- The claim's call contract: both coordinates inside [-1, w] × [-1, h]
and at most one coordinate on the margin; outside it the probe refuses. -/
def sProbeStrict (sim : Simulation) (x y : ℤ) : Option ℚ :=
  if (-1 ≤ x ∧ x ≤ (sim.width : ℤ) ∧ -1 ≤ y ∧ y ≤ (sim.height : ℤ)) ∧
      ¬((x = -1 ∨ x = (sim.width : ℤ)) ∧ (y = -1 ∨ y = (sim.height : ℤ))) then
    sim.sProbe x y
  else none

/-- `open_u` with the strict probe. -/
def open_uS (sim : Simulation) (x y : ℤ) : Option Bool :=
  (sProbeStrict sim x y).bind fun a =>
    if a = FLUID then (sProbeStrict sim (x - 1) y).map fun b => decide (b = FLUID)
    else some false

/-- `open_v` with the strict probe. -/
def open_vS (sim : Simulation) (x y : ℤ) : Option Bool :=
  (sProbeStrict sim x y).bind fun a =>
    if a = FLUID then (sProbeStrict sim x (y - 1)).map fun b => decide (b = FLUID)
    else some false

/-- The projection cell action with the strict probe. -/
def cellProjectS (sim : Simulation) (dt : ℚ) (x y : Nat) : Option Simulation :=
  if sim.s.get x y ≠ FLUID then some sim
  else
    let d := OVERRELAXATION_FACTOR *
      (sim.u.get (x + 1) y - sim.u.get x y + sim.v.get x (y + 1) - sim.v.get x y)
    (sProbeStrict sim ((x : ℤ) - 1) (y : ℤ)).bind fun s1 =>
    (sProbeStrict sim ((x : ℤ) + 1) (y : ℤ)).bind fun s2 =>
    (sProbeStrict sim (x : ℤ) ((y : ℤ) - 1)).bind fun s3 =>
    (sProbeStrict sim (x : ℤ) ((y : ℤ) + 1)).bind fun s4 =>
      let sw := s1 + s2 + s3 + s4
      if sw = 0 then some sim
      else
        let u1 := sim.u.set x y (sim.u.get x y + d * s1 / sw)
        let u2 := u1.set (x + 1) y (u1.get (x + 1) y - d * s2 / sw)
        let v1 := sim.v.set x y (sim.v.get x y + d * s3 / sw)
        let v2 := v1.set x (y + 1) (v1.get x (y + 1) - d * s4 / sw)
        let p1 := sim.p.set x y (sim.p.get x y - d / sw * DENSITY * H / dt)
        some { sim with u := u2, v := v2, p := p1 }

/-- One projection sweep with the strict probe. -/
def sweepS (sim : Simulation) (dt : ℚ) : Option Simulation :=
  foldOption
    (fun sm y =>
      foldOption (fun sm2 x => cellProjectS sm2 dt x y) sm (List.range sim.width))
    sim (List.range sim.height)

/-- The projection pass with the strict probe. -/
def projectionS (sim : Simulation) (dt : ℚ) : Option Simulation :=
  iterOption (fun sm => sweepS sm dt) NUM_PROJ_ITERATIONS
    { sim with p := sim.p.zero }

/-- The gravity pass with the strict probe. -/
def gravitationS (sim : Simulation) (dt : ℚ) : Option Simulation :=
  (foldOption
      (fun a (y : Nat) =>
        foldOption
          (fun a2 (x : Nat) =>
            (open_vS sim (x : ℤ) (y : ℤ)).map fun b =>
              if b then a2.set x y (a2.get x y + GRAVITY * dt) else a2)
          a (List.range sim.width))
      sim.v (List.range sim.height)).map
    fun v' => { sim with v := v' }

/-- The velocity advection cell action with the strict probe. -/
def advCellS (sim : Simulation) (dt : ℚ) (st : Array2D × Array2D) (i j : Nat) :
    Option (Array2D × Array2D) :=
  (if 1 ≤ i ∧ i < sim.width then
      (open_uS sim (i : ℤ) (j : ℤ)).map fun b =>
        if b then
          let x := (i : ℚ) * H
          let y := (j : ℚ) * H + (1 / 2) * H
          let uu := st.1.get i j
          let vv := sim.avg_v i j
          st.1.set i j (sim.sample_u (x - dt * uu) (y - dt * vv))
        else st.1
    else some st.1).bind fun nu =>
  (if 1 ≤ j ∧ j < sim.height then
      (open_vS sim (i : ℤ) (j : ℤ)).map fun b =>
        if b then
          let x := (i : ℚ) * H + (1 / 2) * H
          let y := (j : ℚ) * H
          let vv := st.2.get i j
          let uu := sim.avg_u i j
          st.2.set i j (sim.sample_v (x - dt * uu) (y - dt * vv))
        else st.2
    else some st.2).bind fun nv =>
  some (nu, nv)

/-- The velocity advection pass with the strict probe. -/
def advectionS (sim : Simulation) (dt : ℚ) : Option Simulation :=
  (foldOption
      (fun st j =>
        foldOption (fun st2 i => advCellS sim dt st2 i j) st
          (List.range (sim.width + 1)))
      (sim.u, sim.v) (List.range (sim.height + 1))).map
    fun st => { sim with u := st.1, v := st.2 }

/-- One whole step with the strict probe (the scalar advection pass issues
no probes and is shared with the source pipeline). -/
def stepS (sim : Simulation) : Option Simulation :=
  (if WITH_GRAVITY then gravitationS sim DT else some sim).bind fun s0 =>
  (projectionS s0 DT).bind fun s1 =>
  (advectionS s1 DT).bind fun s2 =>
  some (s2.smoke_advection DT)

/-- Run a sequence of public operations with the strict probe. -/
def runOpsS (sim : Simulation) : List SimOp → Option Simulation
  | [] => some sim
  | op :: ops =>
    (match op with
      | SimOp.step => stepS sim
      | SimOp.stamp cx cy r => some (sim.draw_obstacle cx cy r)
      | SimOp.reset => sim.reset
      | SimOp.resetWalls => sim.reset_except_walls).bind
      fun sim' => runOpsS sim' ops

end MarginSpec

/-! ## Concrete states used as witnesses and counterexamples -/

/-- A well-shaped 1×1 state: one FLUID cell, boundary u faces at the inflow
speed. -/
def sim1 : Simulation :=
  ⟨1, 1, ⟨2, 1, [10, 10]⟩, ⟨1, 2, [0, 0]⟩, ⟨1, 1, [1]⟩, ⟨1, 1, [0]⟩,
    ⟨1, 1, [0]⟩⟩

/-- A well-shaped 2×1 state with pinned boundary u faces (value WINDSPEED)
and one interior u face at 0. -/
def sim2 : Simulation :=
  ⟨2, 1, ⟨3, 1, [10, 0, 10]⟩, ⟨2, 2, [0, 0, 0, 0]⟩, ⟨2, 1, [1, 1]⟩,
    ⟨2, 1, [0, 0]⟩, ⟨2, 1, [0, 0]⟩⟩

/-- A well-shaped all-FLUID 3×3 state whose u faces around cell (2,1) carry
speed H/DT, so the back-trace from cell (2,1) lands on the center of cell
(1,1), where the smoke value is 1 (everywhere else 0). -/
def sim3 : Simulation :=
  ⟨3, 3,
    ⟨4, 3, [0, 0, 0, 0, 0, 0, 20/11, 20/11, 0, 0, 0, 0]⟩,
    ⟨3, 4, [0, 0, 0, 0, 0, 0, 0, 0, 0, 0, 0, 0]⟩,
    ⟨3, 3, [1, 1, 1, 1, 1, 1, 1, 1, 1]⟩,
    ⟨3, 3, [0, 0, 0, 0, 0, 0, 0, 0, 0]⟩,
    ⟨3, 3, [0, 0, 0, 0, 1, 0, 0, 0, 0]⟩⟩

/-- A well-shaped 2×2 state whose only nonzero u sample sits at the
right-most stored u column (index (2,1), location (2H, H + H/2)). -/
def sim4 : Simulation :=
  ⟨2, 2, ⟨3, 2, [0, 0, 0, 0, 0, 5]⟩, ⟨2, 3, [0, 0, 0, 0, 0, 0]⟩,
    ⟨2, 2, [1, 1, 1, 1]⟩, ⟨2, 2, [0, 0, 0, 0]⟩, ⟨2, 2, [0, 0, 0, 0]⟩⟩

/-- A well-shaped all-FLUID 3×3 state: the boundary cell (0,1) carries smoke
value 5, all other cells 0; the u faces of cell (1,1) carry speed H/DT so
its back-trace pulls from the boundary column. -/
def sim5 : Simulation :=
  ⟨3, 3,
    ⟨4, 3, [0, 0, 0, 0, 0, 20/11, 20/11, 0, 0, 0, 0, 0]⟩,
    ⟨3, 4, [0, 0, 0, 0, 0, 0, 0, 0, 0, 0, 0, 0]⟩,
    ⟨3, 3, [1, 1, 1, 1, 1, 1, 1, 1, 1]⟩,
    ⟨3, 3, [0, 0, 0, 0, 0, 0, 0, 0, 0]⟩,
    ⟨3, 3, [0, 0, 0, 5, 0, 0, 0, 0, 0]⟩⟩

/-- The smallest-height successfully constructed simulation used to witness
reachability claims: `Simulation.new 1 73` succeeds (the nine smoke bands
fit inside 73 rows). -/
def sim73 : Simulation :=
  (Simulation.new 1 73).getD sim1

/-- The state after one `step` from `sim1`. -/
def stepSim1 : Simulation :=
  (Simulation.step sim1).getD sim1

/-! ## Generic lemmas about the fold combinators -/

theorem foldOption_nil (f : α → β → Option α) (a : α) :
    foldOption f a [] = some a := rfl

theorem foldOption_cons (f : α → β → Option α) (a : α) (b : β) (bs : List β) :
    foldOption f a (b :: bs) = (f a b).bind fun a' => foldOption f a' bs := rfl

theorem foldOption_append (f : α → β → Option α) (a : α) (l1 l2 : List β) :
    foldOption f a (l1 ++ l2) =
      (foldOption f a l1).bind fun a' => foldOption f a' l2 := by
  induction l1 generalizing a with
  | nil => simp [foldOption]
  | cons b bs ih =>
    simp only [List.cons_append, foldOption_cons]
    cases f a b with
    | none => simp
    | some a' => simpa using ih a'

theorem foldOption_map (f : α → γ → Option α) (g : β → γ) (a : α) (l : List β) :
    foldOption f a (l.map g) = foldOption (fun acc b => f acc (g b)) a l := by
  induction l generalizing a with
  | nil => rfl
  | cons b bs ih =>
    simp only [List.map_cons, foldOption_cons]
    cases f a (g b) with
    | none => simp
    | some a' => simpa using ih a'

theorem foldOption_flatMap (f : α → γ → Option α) (g : β → List γ) (a : α)
    (l : List β) :
    foldOption f a (l.flatMap g) =
      foldOption (fun acc b => foldOption f acc (g b)) a l := by
  induction l generalizing a with
  | nil => rfl
  | cons b bs ih =>
    rw [List.flatMap_cons, foldOption_append, foldOption_cons]
    cases foldOption f a (g b) with
    | none => simp
    | some a' => simpa using ih a'

theorem foldOption_congr {f g : α → β → Option α} {l : List β} {a : α}
    (h : ∀ acc b, b ∈ l → f acc b = g acc b) :
    foldOption f a l = foldOption g a l := by
  induction l generalizing a with
  | nil => rfl
  | cons b bs ih =>
    simp only [foldOption_cons, h a b (List.mem_cons_self b bs)]
    cases g a b with
    | none => rfl
    | some a' =>
      simpa using ih fun acc c hc => h acc c (List.mem_cons_of_mem _ hc)

theorem foldOption_isSome {f : α → β → Option α} {l : List β} {a : α}
    (h : ∀ acc b, b ∈ l → (f acc b).isSome) :
    (foldOption f a l).isSome := by
  induction l generalizing a with
  | nil => simp [foldOption]
  | cons b bs ih =>
    rw [foldOption_cons]
    obtain ⟨a', hfa⟩ := Option.isSome_iff_exists.mp (h a b (List.mem_cons_self b bs))
    rw [hfa]
    simpa using ih fun acc c hc => h acc c (List.mem_cons_of_mem _ hc)

theorem foldOption_isSome_inv {P : α → Prop} {f : α → β → Option α}
    {l : List β} {a : α} (ha : P a)
    (hpres : ∀ acc b acc', b ∈ l → P acc → f acc b = some acc' → P acc')
    (hsome : ∀ acc b, b ∈ l → P acc → (f acc b).isSome) :
    (foldOption f a l).isSome := by
  induction l generalizing a with
  | nil => simp [foldOption]
  | cons b bs ih =>
    rw [foldOption_cons]
    obtain ⟨a', hfa⟩ := Option.isSome_iff_exists.mp
      (hsome a b (List.mem_cons_self b bs) ha)
    rw [hfa]
    simpa using ih (hpres a b a' (List.mem_cons_self b bs) ha hfa)
      (fun acc c acc' hc => hpres acc c acc' (List.mem_cons_of_mem _ hc))
      (fun acc c hc => hsome acc c (List.mem_cons_of_mem _ hc))

theorem iterOption_isSome_inv {P : α → Prop} {f : α → Option α}
    (hpres : ∀ a a', P a → f a = some a' → P a')
    (hsome : ∀ a, P a → (f a).isSome) :
    ∀ (n : Nat) (a : α), P a → (iterOption f n a).isSome := by
  intro n
  induction n with
  | zero => intro a _; simp [iterOption]
  | succ k ih =>
    intro a ha
    rw [iterOption]
    obtain ⟨a', hfa⟩ := Option.isSome_iff_exists.mp (hsome a ha)
    rw [hfa]
    simpa using ih a' (hpres a a' ha hfa)

theorem foldOption_preserve {P : α → Prop} {f : α → β → Option α} {l : List β}
    {a a' : α} (hfold : foldOption f a l = some a') (ha : P a)
    (hstep : ∀ acc b acc', b ∈ l → P acc → f acc b = some acc' → P acc') :
    P a' := by
  induction l generalizing a with
  | nil =>
    rw [foldOption_nil] at hfold
    cases hfold
    exact ha
  | cons b bs ih =>
    rw [foldOption_cons] at hfold
    rcases hfa : f a b with _ | a1
    · rw [hfa] at hfold; simp at hfold
    · rw [hfa] at hfold
      simp only [Option.some_bind] at hfold
      exact ih hfold
        (hstep a b a1 (List.mem_cons_self b bs) ha hfa)
        fun acc c acc' hc => hstep acc c acc' (List.mem_cons_of_mem _ hc)

theorem iterOption_congr {f g : α → Option α} (h : ∀ a, f a = g a) :
    ∀ (n : Nat) (a : α), iterOption f n a = iterOption g n a := by
  intro n
  induction n with
  | zero => intro a; rfl
  | succ k ih =>
    intro a
    simp only [iterOption, h a]
    cases g a with
    | none => rfl
    | some a' => simpa using ih a'

theorem iterOption_isSome {f : α → Option α} (h : ∀ a, (f a).isSome) :
    ∀ (n : Nat) (a : α), (iterOption f n a).isSome := by
  intro n
  induction n with
  | zero => intro a; simp [iterOption]
  | succ k ih =>
    intro a
    rw [iterOption]
    obtain ⟨a', hfa⟩ := Option.isSome_iff_exists.mp (h a)
    rw [hfa]
    simpa using ih a'

theorem iterOption_preserve {P : α → Prop} {f : α → Option α}
    (hstep : ∀ a a', P a → f a = some a' → P a') :
    ∀ (n : Nat) (a a' : α), P a → iterOption f n a = some a' → P a' := by
  intro n
  induction n with
  | zero =>
    intro a a' ha hit
    rw [iterOption] at hit
    cases hit
    exact ha
  | succ k ih =>
    intro a a' ha hit
    rw [iterOption] at hit
    rcases hfa : f a with _ | a1
    · rw [hfa] at hit; simp at hit
    · rw [hfa] at hit
      simp only [Option.some_bind] at hit
      exact ih a1 a' (hstep a a1 ha hfa) hit

/-! ## Array2D access lemmas -/

namespace Array2D

theorem width_set (a : Array2D) (x y : Nat) (val : ℚ) :
    (a.set x y val).width = a.width := rfl

theorem length_set (a : Array2D) (x y : Nat) (val : ℚ) :
    (a.set x y val).data.length = a.data.length := by
  simp [Array2D.set]

theorem get_set_self (a : Array2D) (x y : Nat) (val : ℚ)
    (hlt : y * a.width + x < a.data.length) :
    (a.set x y val).get x y = val := by
  simp [Array2D.get, Array2D.set, List.getD_eq_getElem?_getD,
    List.getElem?_set_self hlt]

theorem get_set_ne (a : Array2D) (x y x' y' : Nat) (val : ℚ)
    (hne : y * a.width + x ≠ y' * a.width + x') :
    (a.set x y val).get x' y' = a.get x' y' := by
  simp [Array2D.get, Array2D.set, List.getD_eq_getElem?_getD,
    List.getElem?_set_ne hne]

/-- Distinct in-range cells occupy distinct flat slots. -/
theorem slot_ne {w : Nat} {x y x' y' : Nat} (hx : x < w) (hx' : x' < w)
    (hne : (x, y) ≠ (x', y')) : y * w + x ≠ y' * w + x' := by
  intro h
  apply hne
  have hyy : y = y' := by
    rcases Nat.lt_trichotomy y y' with hlt | heq | hgt
    · nlinarith
    · exact heq
    · nlinarith
  subst hyy
  have : x = x' := by omega
  subst this
  rfl

end Array2D

/-! ## Classification probe lemmas -/

namespace Simulation

/-- The probe succeeds on the whole one-cell margin box. -/
theorem sProbe_isSome_of_margin (sim : Simulation) (x y : ℤ)
    (hx0 : -1 ≤ x) (hx1 : x ≤ (sim.width : ℤ))
    (hy0 : -1 ≤ y) (hy1 : y ≤ (sim.height : ℤ)) :
    (sim.sProbe x y).isSome := by
  unfold sProbe
  split
  · simp
  · split
    · simp
    · next hin hmargin =>
      exfalso
      push_neg at hmargin
      obtain ⟨h1, h2, h3, h4⟩ := hmargin
      exact hin ⟨by omega, by omega, by omega, by omega⟩

/-- Probing an in-bounds cell returns the stored value. -/
theorem sProbe_inBounds (sim : Simulation) (x y : Nat)
    (hx : x < sim.width) (hy : y < sim.height) :
    sim.sProbe (x : ℤ) (y : ℤ) = some (sim.s.get x y) := by
  unfold sProbe
  rw [if_pos]
  · simp
  · exact ⟨by omega, by omega, by omega, by omega⟩

/-- A successful probe returning FLUID means the probed cell is in bounds and
stores FLUID (the margin branch always returns SOLID ≠ FLUID). -/
theorem sProbe_eq_fluid (sim : Simulation) (x y : ℤ)
    (h : sim.sProbe x y = some FLUID) :
    0 ≤ x ∧ x < (sim.width : ℤ) ∧ 0 ≤ y ∧ y < (sim.height : ℤ) ∧
      sim.s.get x.toNat y.toNat = FLUID := by
  unfold sProbe at h
  split at h
  · next hin =>
    obtain ⟨h1, h2, h3, h4⟩ := hin
    exact ⟨h1, h3, h2, h4, Option.some.inj h⟩
  · split at h
    · exact absurd (Option.some.inj h) (by with_unfolding_all decide)
    · exact Option.noConfusion h

end Simulation

/-! ## Stage framing: which fields each pass writes -/

namespace Simulation

theorem cellProject_s_eq {sim sim' : Simulation} {dt : ℚ} {x y : Nat}
    (h : sim.cellProject dt x y = some sim') : sim'.s = sim.s := by
  unfold cellProject at h
  split at h
  · obtain rfl := Option.some.inj h
    rfl
  · rw [Option.bind_eq_some] at h
    obtain ⟨s1, _, h⟩ := h
    rw [Option.bind_eq_some] at h
    obtain ⟨s2, _, h⟩ := h
    rw [Option.bind_eq_some] at h
    obtain ⟨s3, _, h⟩ := h
    rw [Option.bind_eq_some] at h
    obtain ⟨s4, _, h⟩ := h
    dsimp only at h
    split at h
    · obtain rfl := Option.some.inj h
      rfl
    · obtain rfl := Option.some.inj h
      rfl

theorem cellProject_dims_eq {sim sim' : Simulation} {dt : ℚ} {x y : Nat}
    (h : sim.cellProject dt x y = some sim') :
    sim'.width = sim.width ∧ sim'.height = sim.height := by
  unfold cellProject at h
  split at h
  · obtain rfl := Option.some.inj h
    exact ⟨rfl, rfl⟩
  · rw [Option.bind_eq_some] at h
    obtain ⟨s1, _, h⟩ := h
    rw [Option.bind_eq_some] at h
    obtain ⟨s2, _, h⟩ := h
    rw [Option.bind_eq_some] at h
    obtain ⟨s3, _, h⟩ := h
    rw [Option.bind_eq_some] at h
    obtain ⟨s4, _, h⟩ := h
    dsimp only at h
    split at h
    · obtain rfl := Option.some.inj h
      exact ⟨rfl, rfl⟩
    · obtain rfl := Option.some.inj h
      exact ⟨rfl, rfl⟩

theorem sweep_s_eq {sim sim' : Simulation} {dt : ℚ}
    (h : sim.sweep dt = some sim') : sim'.s = sim.s := by
  refine foldOption_preserve (P := fun t => t.s = sim.s) h rfl ?_
  intro acc y acc' _ hacc hstep
  refine foldOption_preserve (P := fun t => t.s = sim.s) hstep hacc ?_
  intro acc2 x acc2' _ hacc2 hcell
  rw [cellProject_s_eq hcell, hacc2]

theorem projection_s_eq {sim sim' : Simulation} {dt : ℚ}
    (h : sim.projection dt = some sim') : sim'.s = sim.s := by
  refine iterOption_preserve (P := fun t => t.s = sim.s) ?_
    NUM_PROJ_ITERATIONS _ _ rfl h
  intro a a' ha hstep
  rw [sweep_s_eq hstep, ha]

theorem gravitation_s_eq {sim sim' : Simulation} {dt : ℚ}
    (h : sim.gravitation dt = some sim') : sim'.s = sim.s := by
  unfold gravitation at h
  rw [Option.map_eq_some'] at h
  obtain ⟨v', _, rfl⟩ := h
  rfl

theorem advection_s_eq {sim sim' : Simulation} {dt : ℚ}
    (h : sim.advection dt = some sim') : sim'.s = sim.s := by
  unfold advection at h
  rw [Option.map_eq_some'] at h
  obtain ⟨st, _, rfl⟩ := h
  rfl

theorem smoke_advection_s_eq (sim : Simulation) (dt : ℚ) :
    (sim.smoke_advection dt).s = sim.s := rfl

end Simulation

/-! ## Claim theorems -/

/-- Helper for the projection/spec equivalence: the per-cell actions agree. -/
theorem cellProject_eq_spec (sim : Simulation) (dt : ℚ) (x y : Nat) :
    sim.cellProject dt x y = ProjSpec.specProjCell dt sim (x, y) := by
  unfold Simulation.cellProject ProjSpec.specProjCell
  by_cases hf : sim.s.get x y = FLUID
  · rw [if_neg (not_not_intro hf), if_pos hf]
  · rw [if_pos hf, if_neg hf]

/-- Helper: a full source sweep equals the claim's row-major sweep. -/
theorem sweep_eq_spec (sim : Simulation) (dt : ℚ) :
    sim.sweep dt = ProjSpec.specSweep dt sim := by
  unfold Simulation.sweep ProjSpec.specSweep ProjSpec.specCells
  rw [foldOption_flatMap]
  refine foldOption_congr ?_
  intro acc y _
  rw [foldOption_map]
  refine foldOption_congr ?_
  intro acc2 x _
  exact cellProject_eq_spec acc2 dt x y

/-- C1: on a simulation with valid field shapes, the pressure projection
zeroes the pressure, then runs `NUM_PROJ_ITERATIONS` full row-major sweeps
whose per-cell action on FLUID cells is exactly the claimed
divergence/neighbor-weight computation and the five in-place updates
(non-FLUID cells untouched, sum-zero cells skipped): the source pass equals
the claim's description. -/
theorem c1_projection_matches_spec (sim : Simulation) (dt : ℚ)
    (hv : validShapes sim) :
    sim.projection dt = ProjSpec.specProjection sim dt := by
  unfold Simulation.projection ProjSpec.specProjection
  exact iterOption_congr (fun sm => sweep_eq_spec sm dt) NUM_PROJ_ITERATIONS _

/-- Witness for C1 at the concrete well-shaped state `sim1`. -/
theorem c1_witness :
    validShapes sim1 ∧ Simulation.projection sim1 DT = ProjSpec.specProjection sim1 DT :=
  ⟨by with_unfolding_all decide,
    c1_projection_matches_spec sim1 DT (by with_unfolding_all decide)⟩

/-- C4 (code bug): constructing a 10×10 simulation does not succeed.  For
height 10 the smoke band seeding computes `center - i` = 0 - 1 (a fatal
usize underflow) and band row indices up to 12 ≥ height (a fatal
out-of-bounds write given the container's bounds-checked indexing), so
`Simulation::new(10, 10)` panics instead of returning a simulation. -/
theorem c4_construction_10x10_fails : Simulation.new 10 10 = none := by
  with_unfolding_all rfl

/-- C5 counterexample: the coordinate (-1, -5) is further than one step
outside the 1×1 domain of `sim1` (its y-coordinate is -5 < -1), so the claim
says the probe must hit the fatal panic branch; instead the source returns
SOLID because its margin test `x == -1 || x == w || y == -1 || y == h`
accepts any probe whose x-coordinate sits on a margin line. -/
theorem c5_counterexample : sim1.sProbe (-1) (-5) = some SOLID := by
  with_unfolding_all rfl

/-- C5 (amended): the probe returns the stored value in bounds; it returns
SOLID out of bounds whenever at least one coordinate lies on a margin line
x ∈ {-1, width} or y ∈ {-1, height} (even if the other coordinate is
arbitrarily far out of range); and it panics exactly on the remaining
out-of-bounds coordinates. -/
theorem c5_classify_characterization (sim : Simulation) (x y : ℤ) :
    ((0 ≤ x ∧ x < (sim.width : ℤ) ∧ 0 ≤ y ∧ y < (sim.height : ℤ)) →
      sim.sProbe x y = some (sim.s.get x.toNat y.toNat)) ∧
    ((¬(0 ≤ x ∧ x < (sim.width : ℤ) ∧ 0 ≤ y ∧ y < (sim.height : ℤ))) ∧
        (x = -1 ∨ x = (sim.width : ℤ) ∨ y = -1 ∨ y = (sim.height : ℤ)) →
      sim.sProbe x y = some SOLID) ∧
    ((x ≠ -1 ∧ x ≠ (sim.width : ℤ) ∧ y ≠ -1 ∧ y ≠ (sim.height : ℤ) ∧
        ¬(0 ≤ x ∧ x < (sim.width : ℤ) ∧ 0 ≤ y ∧ y < (sim.height : ℤ))) →
      sim.sProbe x y = none) := by
  unfold Simulation.sProbe
  refine ⟨?_, ?_, ?_⟩
  · intro hin
    rw [if_pos ⟨hin.1, hin.2.2.1, hin.2.1, hin.2.2.2⟩]
  · intro ⟨hout, hmargin⟩
    rw [if_neg (by tauto), if_pos hmargin]
  · intro ⟨h1, h2, h3, h4, hout⟩
    rw [if_neg (by tauto), if_neg (by tauto)]

/-- Witness for C5's amended characterization: all three branches evaluated
on `sim1` at concrete coordinates. -/
theorem c5_witness :
    sim1.sProbe 0 0 = some (sim1.s.get 0 0) ∧
    sim1.sProbe 1 7 = some SOLID ∧
    sim1.sProbe (-2) (-2) = none :=
  ⟨(c5_classify_characterization sim1 0 0).1 (by with_unfolding_all decide),
    (c5_classify_characterization sim1 1 7).2.1 (by with_unfolding_all decide),
    (c5_classify_characterization sim1 (-2) (-2)).2.2 (by with_unfolding_all decide)⟩

/-- C10: one `step` leaves the classification field bit-identical — none of
gravity, projection, velocity advection or scalar advection writes any cell
of `s`. -/
theorem c10_step_preserves_s (sim sim' : Simulation)
    (h : sim.step = some sim') : sim'.s = sim.s := by
  unfold Simulation.step at h
  rw [Option.bind_eq_some] at h
  obtain ⟨s0, hs0, h⟩ := h
  rw [Option.bind_eq_some] at h
  obtain ⟨s1, hs1, h⟩ := h
  rw [Option.bind_eq_some] at h
  obtain ⟨s2, hs2, h⟩ := h
  obtain rfl := Option.some.inj h
  have h0 : s0.s = sim.s := by
    split at hs0
    · exact Simulation.gravitation_s_eq hs0
    · obtain rfl := Option.some.inj hs0
      rfl
  rw [Simulation.smoke_advection_s_eq, Simulation.advection_s_eq hs2,
    Simulation.projection_s_eq hs1, h0]

/-- Helper: a u-face is reported open only when its own cell probe returned
FLUID (the margin branch returns SOLID, and SOLID ≠ FLUID). -/
theorem open_u_eq_some_true {sim : Simulation} {x y : ℤ}
    (h : sim.open_u x y = some true) : sim.sProbe x y = some FLUID := by
  unfold Simulation.open_u at h
  rw [Option.bind_eq_some] at h
  obtain ⟨a, ha, h2⟩ := h
  split at h2
  · next haf => rw [haf] at ha; exact ha
  · exact absurd (Option.some.inj h2) Bool.false_ne_true

/-- Helper: a v-face is reported open only when its own cell probe returned
FLUID. -/
theorem open_v_eq_some_true {sim : Simulation} {x y : ℤ}
    (h : sim.open_v x y = some true) : sim.sProbe x y = some FLUID := by
  unfold Simulation.open_v at h
  rw [Option.bind_eq_some] at h
  obtain ⟨a, ha, h2⟩ := h
  split at h2
  · next haf => rw [haf] at ha; exact ha
  · exact absurd (Option.some.inj h2) Bool.false_ne_true

/-- C2 counterexample: on the well-shaped 2×1 state `sim2`, whose leftmost
and rightmost u-face columns hold the inflow speed WINDSPEED, the projection
pass does NOT leave the leftmost u column unchanged: the cell (0,0) update
adds the sentinel-weighted correction d·s1/s with s1 = SOLID = -EPSILON ≠ 0
to u[0,0], so after the pass u[0,0] ≠ WINDSPEED. -/
theorem c2_counterexample :
    validShapes sim2 ∧ sim2.u.get 0 0 = WINDSPEED ∧
      sim2.u.get 2 0 = WINDSPEED ∧
      ((sim2.projection DT).map fun t => t.u.get 0 0) ≠ some WINDSPEED :=
  ⟨by with_unfolding_all decide, by with_unfolding_all rfl,
    by with_unfolding_all rfl, by with_unfolding_all decide⟩

/-- C2 (amended): the velocity advection pass never writes the u faces on
the leftmost column (x = 0) or the rightmost column (x = width); those
columns survive advection unchanged.  (The projection pass, by contrast,
perturbs them through its sentinel-weighted boundary terms — see the
counterexample.) -/
theorem c2_advection_preserves_pinned_u (sim : Simulation) (dt : ℚ)
    (hv : validShapes sim) (y : Nat) (hy : y < sim.height) (sim' : Simulation)
    (h : sim.advection dt = some sim') :
    sim'.u.get 0 y = sim.u.get 0 y ∧
      sim'.u.get sim.width y = sim.u.get sim.width y := by
  obtain ⟨hw, hh, huw, huh, hul, hrest⟩ := hv
  unfold Simulation.advection at h
  rw [Option.map_eq_some'] at h
  obtain ⟨st, hst, rfl⟩ := h
  have key :
      st.1.width = sim.width + 1 ∧
      st.1.data.length = (sim.width + 1) * sim.height ∧
      st.1.get 0 y = sim.u.get 0 y ∧
      st.1.get sim.width y = sim.u.get sim.width y := by
    refine foldOption_preserve
      (P := fun t : Array2D × Array2D =>
        t.1.width = sim.width + 1 ∧
        t.1.data.length = (sim.width + 1) * sim.height ∧
        t.1.get 0 y = sim.u.get 0 y ∧
        t.1.get sim.width y = sim.u.get sim.width y)
      hst ⟨huw, by rw [hul], rfl, rfl⟩ ?_
    intro acc j acc' hj hacc hstep
    refine foldOption_preserve
      (P := fun t : Array2D × Array2D =>
        t.1.width = sim.width + 1 ∧
        t.1.data.length = (sim.width + 1) * sim.height ∧
        t.1.get 0 y = sim.u.get 0 y ∧
        t.1.get sim.width y = sim.u.get sim.width y)
      hstep hacc ?_
    intro ac i ac' hi hP hcell
    obtain ⟨hPw, hPl, hP0, hPr⟩ := hP
    unfold Simulation.advCell at hcell
    rw [Option.bind_eq_some] at hcell
    obtain ⟨nu, hnu, hcell⟩ := hcell
    rw [Option.bind_eq_some] at hcell
    obtain ⟨nv, hnv, hcell⟩ := hcell
    obtain rfl := Option.some.inj hcell
    have hcases : nu = ac.1 ∨
        ((1 ≤ i ∧ i < sim.width) ∧ ∃ q, nu = ac.1.set i j q) := by
      split at hnu
      · next hir =>
        rw [Option.map_eq_some'] at hnu
        obtain ⟨b, hb, rfl⟩ := hnu
        cases b with
        | false => exact Or.inl rfl
        | true => exact Or.inr ⟨hir, _, rfl⟩
      · exact Or.inl (Option.some.inj hnu).symm
    rcases hcases with rfl | ⟨hir, q, rfl⟩
    · exact ⟨hPw, hPl, hP0, hPr⟩
    · refine ⟨by rw [Array2D.width_set]; exact hPw,
        by rw [Array2D.length_set]; exact hPl, ?_, ?_⟩
      · rw [Array2D.get_set_ne, hP0]
        rw [hPw]
        exact Array2D.slot_ne (by omega) (by omega) (by simp; omega)
      · rw [Array2D.get_set_ne, hPr]
        rw [hPw]
        exact Array2D.slot_ne (by omega) (by omega) (by simp; omega)
  exact ⟨key.2.2.1, key.2.2.2⟩

/-- Witness for C2's amended theorem at the concrete state `sim1` (advection
there writes nothing, so the result is `sim1` itself). -/
theorem c2_witness :
    Simulation.advection sim1 DT = some sim1 ∧
      sim1.u.get 0 0 = sim1.u.get 0 0 ∧
      sim1.u.get 1 0 = sim1.u.get 1 0 :=
  have h : Simulation.advection sim1 DT = some sim1 := by with_unfolding_all rfl
  ⟨h, c2_advection_preserves_pinned_u sim1 DT (by with_unfolding_all decide) 0
    (by decide) sim1 h⟩

/-- Helper: distinct in-range cells stay inside the flat buffer. -/
theorem slot_lt {w h x y : Nat} (hx : x < w) (hy : y < h) :
    y * w + x < w * h := by
  calc y * w + x < y * w + w := by omega
    _ = (y + 1) * w := by ring
    _ ≤ h * w := Nat.mul_le_mul_right w hy
    _ = w * h := Nat.mul_comm h w

/-- Helper: the smoke cell action, with the written value named. -/
theorem smokeCell_eq (sim : Simulation) (dt : ℚ) (a : Array2D) (i j : Nat) :
    sim.smokeCell dt a i j =
      if sim.s.get i j ≠ FLUID then a
      else a.set i j (Simulation.smokeVal sim dt i j) := rfl

theorem smokeCell_width (sim : Simulation) (dt : ℚ) (a : Array2D) (i j : Nat) :
    (sim.smokeCell dt a i j).width = a.width := by
  rw [smokeCell_eq]
  split <;> rfl

theorem smokeCell_length (sim : Simulation) (dt : ℚ) (a : Array2D) (i j : Nat) :
    (sim.smokeCell dt a i j).data.length = a.data.length := by
  rw [smokeCell_eq]
  split
  · rfl
  · exact Array2D.length_set a i j _

/-- Helper: pointwise description of one row of the scalar advection fold. -/
theorem smoke_inner_get (sim : Simulation) (dt : ℚ) (j : Nat) (l : List Nat)
    (hl : ∀ i ∈ l, i < sim.width) (a : Array2D)
    (haw : a.width = sim.width) (hal : a.data.length = sim.width * sim.height)
    (x y : Nat) (hx : x < sim.width) (hyy : y < sim.height) (hj : j < sim.height) :
    (l.foldl (fun a2 i => sim.smokeCell dt a2 i j) a).get x y =
      if x ∈ l ∧ y = j ∧ sim.s.get x y = FLUID
      then Simulation.smokeVal sim dt x y
      else a.get x y := by
  induction l generalizing a with
  | nil => simp
  | cons i l' ih =>
    rw [List.foldl_cons]
    have hiw : i < sim.width := hl i (List.mem_cons_self i l')
    have haw' : (sim.smokeCell dt a i j).width = sim.width := by
      rw [smokeCell_width, haw]
    have hal' : (sim.smokeCell dt a i j).data.length = sim.width * sim.height := by
      rw [smokeCell_length, hal]
    rw [ih (fun i2 h2 => hl i2 (List.mem_cons_of_mem _ h2)) _ haw' hal']
    by_cases hcond : x ∈ l' ∧ y = j ∧ sim.s.get x y = FLUID
    · rw [if_pos hcond, if_pos ⟨List.mem_cons_of_mem _ hcond.1, hcond.2⟩]
    · rw [if_neg hcond, smokeCell_eq]
      by_cases hif : sim.s.get i j ≠ FLUID
      · rw [if_pos hif, if_neg ?_]
        rintro ⟨hmem, hyj, hfl⟩
        rcases List.mem_cons.mp hmem with rfl | hm
        · subst hyj; exact hif hfl
        · exact hcond ⟨hm, hyj, hfl⟩
      · push_neg at hif
        rw [if_neg (not_not_intro hif)]
        by_cases hxy : x = i ∧ y = j
        · obtain ⟨rfl, rfl⟩ := hxy
          rw [Array2D.get_set_self]
          · rw [if_pos ⟨List.mem_cons_self x l', rfl, hif⟩]
          · rw [haw, hal]; exact slot_lt hx hj
        · rw [Array2D.get_set_ne]
          · rw [if_neg ?_]
            rintro ⟨hmem, hyj, hfl⟩
            rcases List.mem_cons.mp hmem with rfl | hm
            · exact hxy ⟨rfl, hyj⟩
            · exact hcond ⟨hm, hyj, hfl⟩
          · rw [haw]
            refine Array2D.slot_ne hiw hx ?_
            simp only [ne_eq, Prod.mk.injEq, not_and]
            intro h1 h2
            exact hxy ⟨h1.symm, h2.symm⟩

/-- Helper: the inner fold preserves shape. -/
theorem smoke_inner_width (sim : Simulation) (dt : ℚ) (j : Nat) (l : List Nat)
    (a : Array2D) :
    (l.foldl (fun a2 i => sim.smokeCell dt a2 i j) a).width = a.width := by
  induction l generalizing a with
  | nil => rfl
  | cons i l' ih => rw [List.foldl_cons, ih, smokeCell_width]

theorem smoke_inner_length (sim : Simulation) (dt : ℚ) (j : Nat) (l : List Nat)
    (a : Array2D) :
    (l.foldl (fun a2 i => sim.smokeCell dt a2 i j) a).data.length =
      a.data.length := by
  induction l generalizing a with
  | nil => rfl
  | cons i l' ih => rw [List.foldl_cons, ih, smokeCell_length]

/-- Helper: pointwise description of the whole scalar advection fold. -/
theorem smoke_outer_get (sim : Simulation) (dt : ℚ) (rows : List Nat)
    (hr : ∀ j ∈ rows, j < sim.height) (a : Array2D)
    (haw : a.width = sim.width) (hal : a.data.length = sim.width * sim.height)
    (x y : Nat) (hx : x < sim.width) (hyy : y < sim.height) :
    (rows.foldl
        (fun a2 j =>
          (List.range' 1 (sim.width - 1)).foldl
            (fun a3 i => sim.smokeCell dt a3 i j) a2)
        a).get x y =
      if (1 ≤ x ∧ x < sim.width) ∧ y ∈ rows ∧ sim.s.get x y = FLUID
      then Simulation.smokeVal sim dt x y
      else a.get x y := by
  induction rows generalizing a with
  | nil => simp
  | cons j rows' ih =>
    rw [List.foldl_cons]
    have hjh : j < sim.height := hr j (List.mem_cons_self j rows')
    have hcw : ∀ i ∈ List.range' 1 (sim.width - 1), i < sim.width := by
      intro i hi
      have := List.mem_range'_1.mp hi
      omega
    have haw' := smoke_inner_width sim dt j (List.range' 1 (sim.width - 1)) a
    have hal' := smoke_inner_length sim dt j (List.range' 1 (sim.width - 1)) a
    rw [ih (fun j2 h2 => hr j2 (List.mem_cons_of_mem _ h2)) _
      (by rw [haw', haw]) (by rw [hal', hal])]
    by_cases hcond : (1 ≤ x ∧ x < sim.width) ∧ y ∈ rows' ∧ sim.s.get x y = FLUID
    · rw [if_pos hcond,
        if_pos ⟨hcond.1, List.mem_cons_of_mem _ hcond.2.1, hcond.2.2⟩]
    · rw [if_neg hcond]
      rw [smoke_inner_get sim dt j (List.range' 1 (sim.width - 1)) hcw a haw hal
        x y hx hyy hjh]
      have hxmem : x ∈ List.range' 1 (sim.width - 1) ↔ 1 ≤ x ∧ x < sim.width := by
        rw [List.mem_range'_1]
        omega
      by_cases hinner : x ∈ List.range' 1 (sim.width - 1) ∧ y = j ∧
          sim.s.get x y = FLUID
      · rw [if_pos hinner,
          if_pos ⟨hxmem.mp hinner.1,
            hinner.2.1 ▸ List.mem_cons_self j rows', hinner.2.2⟩]
      · rw [if_neg hinner, if_neg ?_]
        rintro ⟨hxr, hmem, hfl⟩
        rcases List.mem_cons.mp hmem with rfl | hm
        · exact hinner ⟨hxmem.mpr hxr, rfl, hfl⟩
        · exact hcond ⟨hxr, hm, hfl⟩

/-- Helper: pointwise description of `smoke_advection` on in-range cells. -/
theorem smoke_advection_get (sim : Simulation) (dt : ℚ) (hv : validShapes sim)
    (x y : Nat) (hx : x < sim.width) (hy : y < sim.height) :
    (sim.smoke_advection dt).smoke.get x y =
      if (1 ≤ x ∧ x < sim.width) ∧ (1 ≤ y ∧ y < sim.height) ∧
          sim.s.get x y = FLUID
      then Simulation.smokeVal sim dt x y
      else sim.smoke.get x y := by
  obtain ⟨hw, hh, _, _, _, _, _, _, _, _, _, _, _, _, hsw, hsh, hsl⟩ := hv
  have hrows : ∀ j ∈ List.range' 1 (sim.height - 1), j < sim.height := by
    intro j hj
    have := List.mem_range'_1.mp hj
    omega
  have hmem : y ∈ List.range' 1 (sim.height - 1) ↔ 1 ≤ y ∧ y < sim.height := by
    rw [List.mem_range'_1]
    omega
  show ((List.range' 1 (sim.height - 1)).foldl
      (fun a j =>
        (List.range' 1 (sim.width - 1)).foldl
          (fun a2 i => sim.smokeCell dt a2 i j) a)
      sim.smoke).get x y = _
  rw [smoke_outer_get sim dt _ hrows sim.smoke hsw hsl x y hx hy]
  simp only [hmem]

/-- C3 counterexample: on the well-shaped all-FLUID state `sim3`, the cell
(2, 1) lies on the right-most column x = width-1, part of the outer ring the
claim says is never assigned; the code's loop `for i in 1..width` includes
x = width-1, and the pass changes the stored value there (0 becomes 1). -/
theorem c3_counterexample :
    (Simulation.smoke_advection sim3 DT).smoke.get 2 1 ≠ sim3.smoke.get 2 1 := by
  have h1 : (Simulation.smoke_advection sim3 DT).smoke.get 2 1 = 1 := by
    with_unfolding_all rfl
  have h0 : sim3.smoke.get 2 1 = 0 := by with_unfolding_all rfl
  rw [h1, h0]
  exact one_ne_zero

/-- C3 (amended): the scalar advection pass resamples exactly the FLUID
cells with 1 ≤ x < width and 1 ≤ y < height — this region INCLUDES the
right-most column x = width-1 and the top row y = height-1; only the
left column x = 0, the bottom row y = 0, and non-FLUID cells retain their
previous scalar value. -/
theorem c3_smoke_advection_region (sim : Simulation) (dt : ℚ)
    (hv : validShapes sim) (x y : Nat) (hx : x < sim.width)
    (hy : y < sim.height) :
    ((1 ≤ x ∧ 1 ≤ y ∧ sim.s.get x y = FLUID) →
      (sim.smoke_advection dt).smoke.get x y = Simulation.smokeVal sim dt x y) ∧
    ((x = 0 ∨ y = 0 ∨ sim.s.get x y ≠ FLUID) →
      (sim.smoke_advection dt).smoke.get x y = sim.smoke.get x y) := by
  rw [smoke_advection_get sim dt hv x y hx hy]
  constructor
  · intro hyp
    rw [if_pos ⟨⟨hyp.1, hx⟩, ⟨hyp.2.1, hy⟩, hyp.2.2⟩]
  · intro hyp
    rw [if_neg ?_]
    rintro ⟨⟨hx1, _⟩, ⟨hy1, _⟩, hfl⟩
    rcases hyp with rfl | rfl | hnf
    · omega
    · omega
    · exact hnf hfl

/-- Witness for C3's amended theorem on `sim3`: the interior FLUID cell
(1, 1) is resampled; the left-column cell (0, 1) keeps its value. -/
theorem c3_witness :
    validShapes sim3 ∧
    (Simulation.smoke_advection sim3 DT).smoke.get 1 1 =
      Simulation.smokeVal sim3 DT 1 1 ∧
    (Simulation.smoke_advection sim3 DT).smoke.get 0 1 = sim3.smoke.get 0 1 :=
  ⟨by with_unfolding_all decide,
    (c3_smoke_advection_region sim3 DT (by with_unfolding_all decide) 1 1
      (by decide) (by decide)).1 (by with_unfolding_all decide),
    (c3_smoke_advection_region sim3 DT (by with_unfolding_all decide) 0 1
      (by decide) (by decide)).2 (Or.inl rfl)⟩

/-- Helper: a bilinear blend with weights built from clamped fractions stays
inside any interval containing its four sample values. -/
theorem blend_bounds {tx ty g1 g2 g3 g4 lo hi : ℚ}
    (htx0 : 0 ≤ tx) (htx1 : tx ≤ 1) (hty0 : 0 ≤ ty) (hty1 : ty ≤ 1)
    (h1l : lo ≤ g1) (h1u : g1 ≤ hi) (h2l : lo ≤ g2) (h2u : g2 ≤ hi)
    (h3l : lo ≤ g3) (h3u : g3 ≤ hi) (h4l : lo ≤ g4) (h4u : g4 ≤ hi) :
    lo ≤ (1 - tx) * (1 - ty) * g1 + tx * (1 - ty) * g2 + tx * ty * g3 +
        (1 - tx) * ty * g4 ∧
      (1 - tx) * (1 - ty) * g1 + tx * (1 - ty) * g2 + tx * ty * g3 +
        (1 - tx) * ty * g4 ≤ hi := by
  constructor
  · nlinarith [mul_nonneg (mul_nonneg (by linarith : (0:ℚ) ≤ 1 - tx)
        (by linarith : (0:ℚ) ≤ 1 - ty)) (by linarith : (0:ℚ) ≤ g1 - lo),
      mul_nonneg (mul_nonneg htx0 (by linarith : (0:ℚ) ≤ 1 - ty))
        (by linarith : (0:ℚ) ≤ g2 - lo),
      mul_nonneg (mul_nonneg htx0 hty0) (by linarith : (0:ℚ) ≤ g3 - lo),
      mul_nonneg (mul_nonneg (by linarith : (0:ℚ) ≤ 1 - tx) hty0)
        (by linarith : (0:ℚ) ≤ g4 - lo)]
  · nlinarith [mul_nonneg (mul_nonneg (by linarith : (0:ℚ) ≤ 1 - tx)
        (by linarith : (0:ℚ) ≤ 1 - ty)) (by linarith : (0:ℚ) ≤ hi - g1),
      mul_nonneg (mul_nonneg htx0 (by linarith : (0:ℚ) ≤ 1 - ty))
        (by linarith : (0:ℚ) ≤ hi - g2),
      mul_nonneg (mul_nonneg htx0 hty0) (by linarith : (0:ℚ) ≤ hi - g3),
      mul_nonneg (mul_nonneg (by linarith : (0:ℚ) ≤ 1 - tx) hty0)
        (by linarith : (0:ℚ) ≤ hi - g4)]

/-- Helper facts about one axis of the cell-centered sampler: with the input
clamped into [H, d·H], the floor index stays within [0, d-1] (the index
clamp never binds) and the fractional weight lies in [0, 1). -/
theorem axis_floor_facts (d : Nat) (hd : 1 ≤ d) (t : ℚ) (h1 : H ≤ t)
    (h2 : t ≤ (d : ℚ) * H) :
    Int.toNat ⌊(t - H / 2) / H⌋ ≤ d - 1 ∧
    (Int.toNat ⌊(t - H / 2) / H⌋ : ℚ) ≤ (t - H / 2) / H ∧
    (t - H / 2) / H < (Int.toNat ⌊(t - H / 2) / H⌋ : ℚ) + 1 := by
  have hD : (1 : ℚ) ≤ (d : ℚ) := by exact_mod_cast hd
  have hHpos : (0 : ℚ) < H := by rw [H]; norm_num
  set r := (t - H / 2) / H with hrdef
  have hr1 : 1 / 2 ≤ r := by
    rw [hrdef, le_div_iff hHpos]
    rw [H] at h1 ⊢
    norm_num at h1 ⊢
    linarith
  have hr2 : r ≤ (d : ℚ) - 1 / 2 := by
    rw [hrdef, div_le_iff hHpos]
    rw [H] at h2 ⊢
    norm_num at h2 ⊢
    linarith
  have hfl0 : 0 ≤ ⌊r⌋ := by
    apply Int.le_floor.mpr
    push_cast
    linarith
  have hflr : (⌊r⌋ : ℚ) ≤ r := Int.floor_le r
  have hfl1 : r < (⌊r⌋ : ℚ) + 1 := Int.lt_floor_add_one r
  have hcast : ((Int.toNat ⌊r⌋ : Nat) : ℚ) = ((⌊r⌋ : ℤ) : ℚ) := by
    exact_mod_cast Int.toNat_of_nonneg hfl0
  have hflW : ⌊r⌋ ≤ (d : ℤ) - 1 := by
    have : (⌊r⌋ : ℚ) < (d : ℚ) := by linarith
    have h3 : ⌊r⌋ < (d : ℤ) := by exact_mod_cast this
    omega
  refine ⟨?_, ?_, ?_⟩
  · omega
  · rw [hcast]; exact hflr
  · rw [hcast]; exact hfl1

/-- Helper: with every stored smoke value inside [lo, hi], any bilinear
sample of the smoke field stays inside [lo, hi] (the smoke sampler's clamp
and floor always select four in-range samples with convex weights). -/
theorem sample_smoke_bounds (sim : Simulation) (hw : 1 ≤ sim.width)
    (hh : 1 ≤ sim.height) (lo hi : ℚ)
    (hbound : ∀ a b : Nat, a < sim.width → b < sim.height →
      lo ≤ sim.smoke.get a b ∧ sim.smoke.get a b ≤ hi)
    (xq yq : ℚ) :
    lo ≤ sim.sample_smoke xq yq ∧ sim.sample_smoke xq yq ≤ hi := by
  unfold Simulation.sample_smoke Simulation.sampleField
  dsimp only
  have hHpos : (0 : ℚ) < H := by rw [H]; norm_num
  have hW1 : (1 : ℚ) ≤ (sim.width : ℚ) := by exact_mod_cast hw
  have hH1 : (1 : ℚ) ≤ (sim.height : ℚ) := by exact_mod_cast hh
  set x := max H (min xq ((sim.width : ℚ) * H)) with hxdef
  set y := max H (min yq ((sim.height : ℚ) * H)) with hydef
  have hx1 : H ≤ x := le_max_left _ _
  have hx2 : x ≤ (sim.width : ℚ) * H := by
    apply max_le
    · nlinarith
    · exact min_le_right _ _
  have hy1 : H ≤ y := le_max_left _ _
  have hy2 : y ≤ (sim.height : ℚ) * H := by
    apply max_le
    · nlinarith
    · exact min_le_right _ _
  obtain ⟨hxle, hxlo, hxhi⟩ := axis_floor_facts sim.width hw x hx1 hx2
  obtain ⟨hyle, hylo, hyhi⟩ := axis_floor_facts sim.height hh y hy1 hy2
  set n0 := Int.toNat ⌊(x - H / 2) / H⌋ with hn0def
  set m0 := Int.toNat ⌊(y - H / 2) / H⌋ with hm0def
  have hxmin : min n0 (sim.width - 1) = n0 := min_eq_left hxle
  have hymin : min m0 (sim.height - 1) = m0 := min_eq_left hyle
  rw [hxmin, hymin]
  have htx0 : 0 ≤ ((x - H / 2) - (n0 : ℚ) * H) / H := by
    rw [div_nonneg_iff]
    left
    constructor
    · have : (n0 : ℚ) * H ≤ ((x - H / 2) / H) * H := by
        exact mul_le_mul_of_nonneg_right hxlo (le_of_lt hHpos)
      rw [div_mul_cancel₀ _ (ne_of_gt hHpos)] at this
      linarith
    · linarith
  have htx1 : ((x - H / 2) - (n0 : ℚ) * H) / H ≤ 1 := by
    rw [div_le_one hHpos]
    have : ((x - H / 2) / H) * H < ((n0 : ℚ) + 1) * H := by
      exact mul_lt_mul_of_pos_right hxhi hHpos
    rw [div_mul_cancel₀ _ (ne_of_gt hHpos)] at this
    linarith
  have hty0 : 0 ≤ ((y - H / 2) - (m0 : ℚ) * H) / H := by
    rw [div_nonneg_iff]
    left
    constructor
    · have : (m0 : ℚ) * H ≤ ((y - H / 2) / H) * H := by
        exact mul_le_mul_of_nonneg_right hylo (le_of_lt hHpos)
      rw [div_mul_cancel₀ _ (ne_of_gt hHpos)] at this
      linarith
    · linarith
  have hty1 : ((y - H / 2) - (m0 : ℚ) * H) / H ≤ 1 := by
    rw [div_le_one hHpos]
    have : ((y - H / 2) / H) * H < ((m0 : ℚ) + 1) * H := by
      exact mul_lt_mul_of_pos_right hyhi hHpos
    rw [div_mul_cancel₀ _ (ne_of_gt hHpos)] at this
    linarith
  have hn0w : n0 < sim.width := by omega
  have hm0h : m0 < sim.height := by omega
  have hn1w : min (n0 + 1) (sim.width - 1) < sim.width := by omega
  have hm1h : min (m0 + 1) (sim.height - 1) < sim.height := by omega
  exact blend_bounds htx0 htx1 hty0 hty1
    (hbound n0 m0 hn0w hm0h).1 (hbound n0 m0 hn0w hm0h).2
    (hbound _ m0 hn1w hm0h).1 (hbound _ m0 hn1w hm0h).2
    (hbound _ _ hn1w hm1h).1 (hbound _ _ hn1w hm1h).2
    (hbound n0 _ hn0w hm1h).1 (hbound n0 _ hn0w hm1h).2

/-- C9 counterexample: on the well-shaped all-FLUID 3×3 state `sim5`, whose
only non-boundary cell is (1, 1), the scalar advection pass raises the
interior maximum: the back-trace from (1, 1) reads the boundary cell (0, 1)
holding 5, so the new interior value 5/2 exceeds the old interior maximum 0
— the claimed inequality max(new) ≤ max(old) over non-boundary cells fails
even with no inflow written during the pass. -/
theorem c9_counterexample :
    ¬ ((Simulation.smoke_advection sim5 DT).smoke.get 1 1 ≤
        sim5.smoke.get 1 1) := by
  have h1 : (Simulation.smoke_advection sim5 DT).smoke.get 1 1 = 5 / 2 := by
    with_unfolding_all rfl
  have h0 : sim5.smoke.get 1 1 = 0 := by with_unfolding_all rfl
  rw [h1, h0]
  norm_num

/-- C9 (amended): scalar advection is a convex resampling of the PRIOR smoke
field over ALL cells (boundary cells included in the sampling stencil): if
every stored smoke value lies in [lo, hi] before the pass, every stored
smoke value still lies in [lo, hi] after it.  The claim's inequality holds
with the old extrema taken over all cells, not just non-boundary ones. -/
theorem c9_smoke_advection_bounded (sim : Simulation) (dt : ℚ)
    (hv : validShapes sim) (lo hi : ℚ)
    (hbound : ∀ a b : Nat, a < sim.width → b < sim.height →
      lo ≤ sim.smoke.get a b ∧ sim.smoke.get a b ≤ hi)
    (x y : Nat) (hx : x < sim.width) (hy : y < sim.height) :
    lo ≤ (sim.smoke_advection dt).smoke.get x y ∧
      (sim.smoke_advection dt).smoke.get x y ≤ hi := by
  obtain ⟨hw, hh, hrest⟩ := hv
  rw [smoke_advection_get sim dt ⟨hw, hh, hrest⟩ x y hx hy]
  split
  · exact sample_smoke_bounds sim hw hh lo hi hbound _ _
  · exact hbound x y hx hy

/-- Witness for C9's amended theorem on `sim5` with bounds [0, 5]. -/
theorem c9_witness :
    validShapes sim5 ∧
    0 ≤ (Simulation.smoke_advection sim5 DT).smoke.get 1 1 ∧
    (Simulation.smoke_advection sim5 DT).smoke.get 1 1 ≤ 5 :=
  have hb : ∀ a b : Nat, a < sim5.width → b < sim5.height →
      (0:ℚ) ≤ sim5.smoke.get a b ∧ sim5.smoke.get a b ≤ 5 := by
    have hball : ∀ a < 3, ∀ b < 3,
        (0:ℚ) ≤ sim5.smoke.get a b ∧ sim5.smoke.get a b ≤ 5 := by
      with_unfolding_all decide
    intro a b ha hbb
    exact hball a ha b hbb
  have h := c9_smoke_advection_bounded sim5 DT (by with_unfolding_all decide)
    0 5 hb 1 1 (by decide) (by decide)
  ⟨by with_unfolding_all decide, h.1, h.2⟩

/-- Helper: the sampler's axis clamp is a no-op on locations inside
[H, d·H]. -/
theorem clamp_eq (d : Nat) (t : ℚ) (h1 : H ≤ t) (h2 : t ≤ (d : ℚ) * H) :
    max H (min t ((d : ℚ) * H)) = t := by
  rw [min_eq_left h2, max_eq_right h1]

/-- C8 counterexample: on the well-shaped 2×2 state `sim4`, the stored u
sample at index (2, 1) sits at location (2H, H + H/2), inside the sampler's
clamp range [H, 2H] × [H, 2H]; yet sampling u exactly there returns 0, not
the stored value 5, because the sampler clamps its column index to
width - 1 = 1 and never reads the last stored u column x = width. -/
theorem c8_counterexample :
    H ≤ (2 : ℚ) * H ∧ (2 : ℚ) * H ≤ (sim4.width : ℚ) * H ∧
    H ≤ (1 : ℚ) * H + H / 2 ∧ (1 : ℚ) * H + H / 2 ≤ (sim4.height : ℚ) * H ∧
    sim4.sample_u ((2 : ℚ) * H) ((1 : ℚ) * H + H / 2) ≠ sim4.u.get 2 1 := by
  refine ⟨?_, ?_, ?_, ?_, ?_⟩
  · rw [H]; norm_num
  · show (2 : ℚ) * H ≤ (2 : ℚ) * H
    exact le_refl _
  · rw [H]; norm_num
  · show (1 : ℚ) * H + H / 2 ≤ (2 : ℚ) * H
    rw [H]; norm_num
  · have h1 : sim4.sample_u ((2 : ℚ) * H) ((1 : ℚ) * H + H / 2) = 0 := by
      with_unfolding_all rfl
    have h2 : sim4.u.get 2 1 = 5 := by with_unfolding_all rfl
    rw [h1, h2]
    norm_num

/-- C8 (amended): sampling a field exactly at one of its stored coordinates
returns that stored value exactly, for every stored sample whose zero-offset
index is at most dimension - 1 on each axis (and at least 1, so the location
is inside the clamp range) — i.e. all in-clamp stored locations of the
cell-centered smoke field, and all of u's (resp. v's) except the extra
right-most stored column x = width (resp. top-most stored row y = height),
which the sampler's index clamp maps to the previous column (row). -/
theorem c8_sample_round_trip (sim : Simulation) (hv : validShapes sim) :
    (∀ i j : Nat, 1 ≤ i → i ≤ sim.width - 1 → 1 ≤ j → j ≤ sim.height - 1 →
      sim.sample_u ((i : ℚ) * H) ((j : ℚ) * H + H / 2) = sim.u.get i j) ∧
    (∀ i j : Nat, 1 ≤ i → i ≤ sim.width - 1 → 1 ≤ j → j ≤ sim.height - 1 →
      sim.sample_v ((i : ℚ) * H + H / 2) ((j : ℚ) * H) = sim.v.get i j) ∧
    (∀ i j : Nat, 1 ≤ i → i ≤ sim.width - 1 → 1 ≤ j → j ≤ sim.height - 1 →
      sim.sample_smoke ((i : ℚ) * H + H / 2) ((j : ℚ) * H + H / 2) =
        sim.smoke.get i j) := by
  obtain ⟨hw, hh, _⟩ := hv
  have hH0 : (H : ℚ) ≠ 0 := by rw [H]; norm_num
  have hHpos : (0 : ℚ) < H := by rw [H]; norm_num
  have key : ∀ (d i : Nat), 1 ≤ i → i ≤ d - 1 → 1 ≤ d →
      (H ≤ (i : ℚ) * H ∧ (i : ℚ) * H ≤ (d : ℚ) * H) ∧
      (H ≤ (i : ℚ) * H + H / 2 ∧ (i : ℚ) * H + H / 2 ≤ (d : ℚ) * H) := by
    intro d i hi1 hi2 hd
    have hiq : (1 : ℚ) ≤ (i : ℚ) := by exact_mod_cast hi1
    have hidq : (i : ℚ) + 1 ≤ (d : ℚ) := by exact_mod_cast (by omega : i + 1 ≤ d)
    constructor
    · constructor
      · nlinarith
      · nlinarith
    · constructor
      · nlinarith
      · nlinarith
  have hfloor0 : ∀ i : Nat, ((i : ℚ) * H - 0) / H = (i : ℚ) := by
    intro i
    rw [sub_zero]
    exact mul_div_cancel_right₀ _ hH0
  have hfloorh : ∀ i : Nat, ((i : ℚ) * H + H / 2 - H / 2) / H = (i : ℚ) := by
    intro i
    rw [add_sub_cancel_right]
    exact mul_div_cancel_right₀ _ hH0
  have hidx : ∀ (d i : Nat), i ≤ d - 1 →
      min (Int.toNat ⌊(i : ℚ)⌋) (d - 1) = i := by
    intro d i hi2
    rw [Int.floor_natCast]
    rw [Int.toNat_natCast]
    exact min_eq_left hi2
  refine ⟨?_, ?_, ?_⟩
  · intro i j hi1 hi2 hj1 hj2
    obtain ⟨⟨ha1, ha2⟩, _⟩ := key sim.width i hi1 hi2 hw
    obtain ⟨_, hb1, hb2⟩ := key sim.height j hj1 hj2 hh
    unfold Simulation.sample_u Simulation.sampleField
    dsimp only
    rw [clamp_eq sim.width _ ha1 ha2, clamp_eq sim.height _ hb1 hb2]
    rw [hfloor0 i, hfloorh j, hidx sim.width i hi2, hidx sim.height j hj2]
    rw [show ((i : ℚ) * H - 0 - (i : ℚ) * H) / H = 0 by
      rw [sub_zero, sub_self, zero_div]]
    rw [show ((j : ℚ) * H + H / 2 - H / 2 - (j : ℚ) * H) / H = 0 by
      rw [add_sub_cancel_right, sub_self, zero_div]]
    ring
  · intro i j hi1 hi2 hj1 hj2
    obtain ⟨_, ha1, ha2⟩ := key sim.width i hi1 hi2 hw
    obtain ⟨⟨hb1, hb2⟩, _⟩ := key sim.height j hj1 hj2 hh
    unfold Simulation.sample_v Simulation.sampleField
    dsimp only
    rw [clamp_eq sim.width _ ha1 ha2, clamp_eq sim.height _ hb1 hb2]
    rw [hfloorh i, hfloor0 j, hidx sim.width i hi2, hidx sim.height j hj2]
    rw [show ((i : ℚ) * H + H / 2 - H / 2 - (i : ℚ) * H) / H = 0 by
      rw [add_sub_cancel_right, sub_self, zero_div]]
    rw [show ((j : ℚ) * H - 0 - (j : ℚ) * H) / H = 0 by
      rw [sub_zero, sub_self, zero_div]]
    ring
  · intro i j hi1 hi2 hj1 hj2
    obtain ⟨_, ha1, ha2⟩ := key sim.width i hi1 hi2 hw
    obtain ⟨_, hb1, hb2⟩ := key sim.height j hj1 hj2 hh
    unfold Simulation.sample_smoke Simulation.sampleField
    dsimp only
    rw [clamp_eq sim.width _ ha1 ha2, clamp_eq sim.height _ hb1 hb2]
    rw [hfloorh i, hfloorh j, hidx sim.width i hi2, hidx sim.height j hj2]
    rw [show ((i : ℚ) * H + H / 2 - H / 2 - (i : ℚ) * H) / H = 0 by
      rw [add_sub_cancel_right, sub_self, zero_div]]
    rw [show ((j : ℚ) * H + H / 2 - H / 2 - (j : ℚ) * H) / H = 0 by
      rw [add_sub_cancel_right, sub_self, zero_div]]
    ring

/-- Witness for C8's amended theorem at the stored sample (1, 1) of each
field of `sim4`. -/
theorem c8_witness :
    validShapes sim4 ∧
    sim4.sample_u ((1 : ℚ) * H) ((1 : ℚ) * H + H / 2) = sim4.u.get 1 1 ∧
    sim4.sample_v ((1 : ℚ) * H + H / 2) ((1 : ℚ) * H) = sim4.v.get 1 1 ∧
    sim4.sample_smoke ((1 : ℚ) * H + H / 2) ((1 : ℚ) * H + H / 2) =
      sim4.smoke.get 1 1 :=
  have hv : validShapes sim4 := by with_unfolding_all decide
  ⟨hv,
    (c8_sample_round_trip sim4 hv).1 1 1 (by decide) (by decide) (by decide)
      (by decide),
    (c8_sample_round_trip sim4 hv).2.1 1 1 (by decide) (by decide) (by decide)
      (by decide),
    (c8_sample_round_trip sim4 hv).2.2 1 1 (by decide) (by decide) (by decide)
      (by decide)⟩

/-- Helper: pointwise description of circular stamping on in-range cells. -/
theorem fillCircle_get (a : Array2D) (cx cy : ℤ) (r val : ℚ) (x y : Nat)
    (hx : x < a.width) (hy : y < a.height)
    (hlen : a.data.length = a.width * a.height) :
    (a.fillCircle cx cy r val).get x y =
      if ((x : ℚ) - (cx : ℚ)) ^ 2 + ((y : ℚ) - (cy : ℚ)) ^ 2 ≤ r ^ 2 then val
      else a.get x y := by
  unfold Array2D.fillCircle Array2D.get
  dsimp only
  have hk : y * a.width + x < a.width * a.height := slot_lt hx hy
  have hw0 : 0 < a.width := by omega
  have hmod : (y * a.width + x) % a.width = x := by
    rw [Nat.mul_comm y a.width, Nat.mul_add_mod, Nat.mod_eq_of_lt hx]
  have hdiv : (y * a.width + x) / a.width = y := by
    rw [Nat.mul_comm y a.width, Nat.mul_add_div hw0, Nat.div_eq_of_lt hx,
      Nat.add_zero]
  simp only [List.getD_eq_getElem?_getD, List.getElem?_map,
    List.getElem?_range hk, Option.map_some', Option.getD_some]
  rw [hmod, hdiv]
  push_cast
  rfl

/-- C7 (spec-modelled): after `draw_obstacle(cx, cy, r)`, every cell whose
center lies within radius r of (cx, cy) is SOLID with pressure 0 and smoke
0, every u-face and v-face sample within radius r+1 is 0, and every cell or
face outside those discs keeps its previous value. -/
theorem c7_draw_obstacle_postcondition (sim : Simulation) (hv : validShapes sim)
    (cx cy : ℤ) (r : ℚ) :
    (∀ x y : Nat, x < sim.width → y < sim.height →
      (((x : ℚ) - (cx : ℚ)) ^ 2 + ((y : ℚ) - (cy : ℚ)) ^ 2 ≤ r ^ 2 →
        (sim.draw_obstacle cx cy r).s.get x y = SOLID ∧
        (sim.draw_obstacle cx cy r).p.get x y = 0 ∧
        (sim.draw_obstacle cx cy r).smoke.get x y = 0) ∧
      (¬(((x : ℚ) - (cx : ℚ)) ^ 2 + ((y : ℚ) - (cy : ℚ)) ^ 2 ≤ r ^ 2) →
        (sim.draw_obstacle cx cy r).s.get x y = sim.s.get x y ∧
        (sim.draw_obstacle cx cy r).p.get x y = sim.p.get x y ∧
        (sim.draw_obstacle cx cy r).smoke.get x y = sim.smoke.get x y)) ∧
    (∀ x y : Nat, x < sim.width + 1 → y < sim.height →
      (((x : ℚ) - (cx : ℚ)) ^ 2 + ((y : ℚ) - (cy : ℚ)) ^ 2 ≤ (r + 1) ^ 2 →
        (sim.draw_obstacle cx cy r).u.get x y = 0) ∧
      (¬(((x : ℚ) - (cx : ℚ)) ^ 2 + ((y : ℚ) - (cy : ℚ)) ^ 2 ≤ (r + 1) ^ 2) →
        (sim.draw_obstacle cx cy r).u.get x y = sim.u.get x y)) ∧
    (∀ x y : Nat, x < sim.width → y < sim.height + 1 →
      (((x : ℚ) - (cx : ℚ)) ^ 2 + ((y : ℚ) - (cy : ℚ)) ^ 2 ≤ (r + 1) ^ 2 →
        (sim.draw_obstacle cx cy r).v.get x y = 0) ∧
      (¬(((x : ℚ) - (cx : ℚ)) ^ 2 + ((y : ℚ) - (cy : ℚ)) ^ 2 ≤ (r + 1) ^ 2) →
        (sim.draw_obstacle cx cy r).v.get x y = sim.v.get x y)) := by
  obtain ⟨hw, hh, huw, huh, hul, hvw, hvh, hvl, hsw, hsh, hsl, hpw, hph, hpl,
    hmw, hmh, hml⟩ := hv
  refine ⟨?_, ?_, ?_⟩
  · intro x y hx hy
    constructor
    · intro hin
      refine ⟨?_, ?_, ?_⟩
      · show (sim.s.fillCircle cx cy r SOLID).get x y = SOLID
        rw [fillCircle_get sim.s cx cy r SOLID x y (by omega) (by omega)
          (by rw [hsl, hsw, hsh]), if_pos hin]
      · show (sim.p.fillCircle cx cy r 0).get x y = 0
        rw [fillCircle_get sim.p cx cy r 0 x y (by omega) (by omega)
          (by rw [hpl, hpw, hph]), if_pos hin]
      · show (sim.smoke.fillCircle cx cy r 0).get x y = 0
        rw [fillCircle_get sim.smoke cx cy r 0 x y (by omega) (by omega)
          (by rw [hml, hmw, hmh]), if_pos hin]
    · intro hout
      refine ⟨?_, ?_, ?_⟩
      · show (sim.s.fillCircle cx cy r SOLID).get x y = sim.s.get x y
        rw [fillCircle_get sim.s cx cy r SOLID x y (by omega) (by omega)
          (by rw [hsl, hsw, hsh]), if_neg hout]
      · show (sim.p.fillCircle cx cy r 0).get x y = sim.p.get x y
        rw [fillCircle_get sim.p cx cy r 0 x y (by omega) (by omega)
          (by rw [hpl, hpw, hph]), if_neg hout]
      · show (sim.smoke.fillCircle cx cy r 0).get x y = sim.smoke.get x y
        rw [fillCircle_get sim.smoke cx cy r 0 x y (by omega) (by omega)
          (by rw [hml, hmw, hmh]), if_neg hout]
  · intro x y hx hy
    constructor
    · intro hin
      show (sim.u.fillCircle cx cy (r + 1) 0).get x y = 0
      rw [fillCircle_get sim.u cx cy (r + 1) 0 x y (by omega) (by omega)
        (by rw [hul, huw, huh]), if_pos hin]
    · intro hout
      show (sim.u.fillCircle cx cy (r + 1) 0).get x y = sim.u.get x y
      rw [fillCircle_get sim.u cx cy (r + 1) 0 x y (by omega) (by omega)
        (by rw [hul, huw, huh]), if_neg hout]
  · intro x y hx hy
    constructor
    · intro hin
      show (sim.v.fillCircle cx cy (r + 1) 0).get x y = 0
      rw [fillCircle_get sim.v cx cy (r + 1) 0 x y (by omega) (by omega)
        (by rw [hvl, hvw, hvh]), if_pos hin]
    · intro hout
      show (sim.v.fillCircle cx cy (r + 1) 0).get x y = sim.v.get x y
      rw [fillCircle_get sim.v cx cy (r + 1) 0 x y (by omega) (by omega)
        (by rw [hvl, hvw, hvh]), if_neg hout]

/-- Witness for C7 on `sim3` with a radius-1 disc at (1, 1): the center cell
becomes SOLID with pressure and smoke 0, the corner cell (0, 0) (distance²
= 2 > 1) is untouched, and the u face (0, 0) (distance² = 2 ≤ 4 = (r+1)²)
is zeroed. -/
theorem c7_witness :
    validShapes sim3 ∧
    (sim3.draw_obstacle 1 1 1).s.get 1 1 = SOLID ∧
    (sim3.draw_obstacle 1 1 1).p.get 1 1 = 0 ∧
    (sim3.draw_obstacle 1 1 1).smoke.get 1 1 = 0 ∧
    (sim3.draw_obstacle 1 1 1).s.get 0 0 = sim3.s.get 0 0 ∧
    (sim3.draw_obstacle 1 1 1).u.get 0 0 = 0 :=
  have hv : validShapes sim3 := by with_unfolding_all decide
  have h1 := ((c7_draw_obstacle_postcondition sim3 hv 1 1 1).1 1 1
    (by decide) (by decide)).1 (by with_unfolding_all decide)
  have h2 := ((c7_draw_obstacle_postcondition sim3 hv 1 1 1).1 0 0
    (by decide) (by decide)).2 (by with_unfolding_all decide)
  have h3 := ((c7_draw_obstacle_postcondition sim3 hv 1 1 1).2.1 0 0
    (by decide) (by decide)).1 (by with_unfolding_all decide)
  ⟨hv, h1.1, h1.2.1, h1.2.2, h2.1, h3⟩

/-- Helper: `open_u` succeeds whenever both its probes stay inside the
one-cell margin box. -/
theorem open_u_isSome (sim : Simulation) (x y : ℤ)
    (hx0 : 0 ≤ x) (hx1 : x ≤ (sim.width : ℤ))
    (hy0 : -1 ≤ y) (hy1 : y ≤ (sim.height : ℤ)) :
    (sim.open_u x y).isSome := by
  unfold Simulation.open_u
  obtain ⟨a, ha⟩ := Option.isSome_iff_exists.mp
    (Simulation.sProbe_isSome_of_margin sim x y (by omega) hx1 hy0 hy1)
  rw [ha, Option.some_bind]
  split
  · obtain ⟨b, hb⟩ := Option.isSome_iff_exists.mp
      (Simulation.sProbe_isSome_of_margin sim (x - 1) y (by omega) (by omega)
        hy0 hy1)
    rw [hb]
    rfl
  · rfl

/-- Helper: `open_v` succeeds whenever both its probes stay inside the
one-cell margin box. -/
theorem open_v_isSome (sim : Simulation) (x y : ℤ)
    (hx0 : -1 ≤ x) (hx1 : x ≤ (sim.width : ℤ))
    (hy0 : 0 ≤ y) (hy1 : y ≤ (sim.height : ℤ)) :
    (sim.open_v x y).isSome := by
  unfold Simulation.open_v
  obtain ⟨a, ha⟩ := Option.isSome_iff_exists.mp
    (Simulation.sProbe_isSome_of_margin sim x y hx0 hx1 (by omega) hy1)
  rw [ha, Option.some_bind]
  split
  · obtain ⟨b, hb⟩ := Option.isSome_iff_exists.mp
      (Simulation.sProbe_isSome_of_margin sim x (y - 1) hx0 hx1 (by omega)
        (by omega))
    rw [hb]
    rfl
  · rfl

/-- Helper: the projection cell action never hits the probe's panic branch:
all four neighbor probes of an in-range cell stay inside the margin box. -/
theorem cellProject_isSome (sim : Simulation) (dt : ℚ) (x y : Nat)
    (hx : x < sim.width) (hy : y < sim.height) :
    (sim.cellProject dt x y).isSome := by
  unfold Simulation.cellProject
  split
  · rfl
  · obtain ⟨s1, h1⟩ := Option.isSome_iff_exists.mp
      (Simulation.sProbe_isSome_of_margin sim ((x : ℤ) - 1) (y : ℤ)
        (by omega) (by omega) (by omega) (by omega))
    obtain ⟨s2, h2⟩ := Option.isSome_iff_exists.mp
      (Simulation.sProbe_isSome_of_margin sim ((x : ℤ) + 1) (y : ℤ)
        (by omega) (by omega) (by omega) (by omega))
    obtain ⟨s3, h3⟩ := Option.isSome_iff_exists.mp
      (Simulation.sProbe_isSome_of_margin sim (x : ℤ) ((y : ℤ) - 1)
        (by omega) (by omega) (by omega) (by omega))
    obtain ⟨s4, h4⟩ := Option.isSome_iff_exists.mp
      (Simulation.sProbe_isSome_of_margin sim (x : ℤ) ((y : ℤ) + 1)
        (by omega) (by omega) (by omega) (by omega))
    rw [h1, h2, h3, h4]
    simp only [Option.some_bind]
    split
    · rfl
    · rfl

/-- Helper: a full projection sweep never panics. -/
theorem sweep_isSome (sim : Simulation) (dt : ℚ) : (sim.sweep dt).isSome := by
  unfold Simulation.sweep
  refine foldOption_isSome_inv
    (P := fun t : Simulation => t.width = sim.width ∧ t.height = sim.height)
    ⟨rfl, rfl⟩ ?_ ?_
  · intro acc y acc' hy hacc hstep
    refine foldOption_preserve
      (P := fun t : Simulation => t.width = sim.width ∧ t.height = sim.height)
      hstep hacc ?_
    intro acc2 x acc2' hx hacc2 hcell
    obtain ⟨e1, e2⟩ := Simulation.cellProject_dims_eq hcell
    rw [e1, e2, hacc2.1, hacc2.2]
    exact ⟨rfl, rfl⟩
  · intro acc y hy hacc
    refine foldOption_isSome_inv
      (P := fun t : Simulation => t.width = sim.width ∧ t.height = sim.height)
      hacc ?_ ?_
    · intro acc2 x acc2' hx hacc2 hcell
      obtain ⟨e1, e2⟩ := Simulation.cellProject_dims_eq hcell
      rw [e1, e2, hacc2.1, hacc2.2]
      exact ⟨rfl, rfl⟩
    · intro acc2 x hx hacc2
      exact cellProject_isSome acc2 dt x y
        (by rw [hacc2.1]; exact List.mem_range.mp hx)
        (by rw [hacc2.2]; exact List.mem_range.mp hy)

/-- Helper: one sweep keeps the grid dimensions. -/
theorem sweep_dims_eq {sim sim' : Simulation} {dt : ℚ}
    (h : sim.sweep dt = some sim') :
    sim'.width = sim.width ∧ sim'.height = sim.height := by
  refine foldOption_preserve
    (P := fun t : Simulation => t.width = sim.width ∧ t.height = sim.height)
    h ⟨rfl, rfl⟩ ?_
  intro acc y acc' hy hacc hstep
  refine foldOption_preserve
    (P := fun t : Simulation => t.width = sim.width ∧ t.height = sim.height)
    hstep hacc ?_
  intro acc2 x acc2' hx hacc2 hcell
  obtain ⟨e1, e2⟩ := Simulation.cellProject_dims_eq hcell
  rw [e1, e2, hacc2.1, hacc2.2]
  exact ⟨rfl, rfl⟩

/-- Helper: the whole projection pass never panics. -/
theorem projection_isSome (sim : Simulation) (dt : ℚ) :
    (sim.projection dt).isSome := by
  unfold Simulation.projection
  exact iterOption_isSome (fun sm => sweep_isSome sm dt) NUM_PROJ_ITERATIONS _

/-- Helper: the projection pass keeps the grid dimensions. -/
theorem projection_dims_eq {sim sim' : Simulation} {dt : ℚ}
    (h : sim.projection dt = some sim') :
    sim'.width = sim.width ∧ sim'.height = sim.height := by
  unfold Simulation.projection at h
  refine iterOption_preserve
    (P := fun t : Simulation => t.width = sim.width ∧ t.height = sim.height)
    ?_ NUM_PROJ_ITERATIONS _ _ ?_ h
  · intro a a' ha hstep
    obtain ⟨e1, e2⟩ := sweep_dims_eq hstep
    rw [e1, e2, ha.1, ha.2]
    exact ⟨rfl, rfl⟩
  · exact ⟨rfl, rfl⟩

/-- Helper: the gravity pass never panics. -/
theorem gravitation_isSome (sim : Simulation) (dt : ℚ) :
    (sim.gravitation dt).isSome := by
  unfold Simulation.gravitation
  rw [Option.isSome_map']
  refine foldOption_isSome ?_
  intro a y hy
  refine foldOption_isSome ?_
  intro a2 x hx
  rw [Option.isSome_map']
  exact open_v_isSome sim (x : ℤ) (y : ℤ)
    (by omega)
    (by have := List.mem_range.mp hx; omega)
    (by omega)
    (by have := List.mem_range.mp hy; omega)

/-- Helper: the velocity advection cell action never panics. -/
theorem advCell_isSome (sim : Simulation) (dt : ℚ) (st : Array2D × Array2D)
    (i j : Nat) (hi : i ≤ sim.width) (hj : j ≤ sim.height) :
    (sim.advCell dt st i j).isSome := by
  unfold Simulation.advCell
  split
  · obtain ⟨b, hb⟩ := Option.isSome_iff_exists.mp
      (open_u_isSome sim (i : ℤ) (j : ℤ) (by omega) (by omega) (by omega)
        (by omega))
    rw [hb]
    simp only [Option.map_some', Option.some_bind]
    split
    · obtain ⟨b2, hb2⟩ := Option.isSome_iff_exists.mp
        (open_v_isSome sim (i : ℤ) (j : ℤ) (by omega) (by omega) (by omega)
          (by omega))
      rw [hb2]
      simp only [Option.map_some', Option.some_bind]
      rfl
    · rfl
  · simp only [Option.some_bind]
    split
    · obtain ⟨b2, hb2⟩ := Option.isSome_iff_exists.mp
        (open_v_isSome sim (i : ℤ) (j : ℤ) (by omega) (by omega) (by omega)
          (by omega))
      rw [hb2]
      simp only [Option.map_some', Option.some_bind]
      rfl
    · rfl

/-- Helper: the velocity advection pass never panics. -/
theorem advection_isSome (sim : Simulation) (dt : ℚ) :
    (sim.advection dt).isSome := by
  unfold Simulation.advection
  rw [Option.isSome_map']
  refine foldOption_isSome ?_
  intro st j hj
  refine foldOption_isSome ?_
  intro st2 i hi
  exact advCell_isSome sim dt st2 i j
    (by have := List.mem_range.mp hi; omega)
    (by have := List.mem_range.mp hj; omega)

/-- Helper: one whole step never panics, on any state whatsoever: every
classification probe either falls in bounds or on the one-cell margin. -/
theorem step_isSome (sim : Simulation) : (sim.step).isSome := by
  unfold Simulation.step
  have h0 : (if WITH_GRAVITY then sim.gravitation DT else some sim).isSome := by
    split
    · exact gravitation_isSome sim DT
    · rfl
  obtain ⟨s0, h0'⟩ := Option.isSome_iff_exists.mp h0
  rw [h0', Option.some_bind]
  obtain ⟨s1, h1'⟩ := Option.isSome_iff_exists.mp (projection_isSome s0 DT)
  rw [h1', Option.some_bind]
  obtain ⟨s2, h2'⟩ := Option.isSome_iff_exists.mp (advection_isSome s1 DT)
  rw [h2', Option.some_bind]
  rfl

/-- Helper: the gravity pass keeps the grid dimensions. -/
theorem gravitation_dims_eq {sim sim' : Simulation} {dt : ℚ}
    (h : sim.gravitation dt = some sim') :
    sim'.width = sim.width ∧ sim'.height = sim.height := by
  unfold Simulation.gravitation at h
  rw [Option.map_eq_some'] at h
  obtain ⟨v', _, rfl⟩ := h
  exact ⟨rfl, rfl⟩

/-- Helper: the velocity advection pass keeps the grid dimensions. -/
theorem advection_dims_eq {sim sim' : Simulation} {dt : ℚ}
    (h : sim.advection dt = some sim') :
    sim'.width = sim.width ∧ sim'.height = sim.height := by
  unfold Simulation.advection at h
  rw [Option.map_eq_some'] at h
  obtain ⟨st, _, rfl⟩ := h
  exact ⟨rfl, rfl⟩

/-- Helper: one whole step keeps the grid dimensions. -/
theorem step_dims_eq {sim sim' : Simulation} (h : sim.step = some sim') :
    sim'.width = sim.width ∧ sim'.height = sim.height := by
  unfold Simulation.step at h
  rw [Option.bind_eq_some] at h
  obtain ⟨s0, hs0, h⟩ := h
  rw [Option.bind_eq_some] at h
  obtain ⟨s1, hs1, h⟩ := h
  rw [Option.bind_eq_some] at h
  obtain ⟨s2, hs2, h⟩ := h
  obtain rfl := Option.some.inj h
  have e0 : s0.width = sim.width ∧ s0.height = sim.height := by
    split at hs0
    · exact gravitation_dims_eq hs0
    · obtain rfl := Option.some.inj hs0
      exact ⟨rfl, rfl⟩
  obtain ⟨e11, e12⟩ := projection_dims_eq hs1
  obtain ⟨e21, e22⟩ := advection_dims_eq hs2
  constructor
  · show s2.width = sim.width
    rw [e21, e11, e0.1]
  · show s2.height = sim.height
    rw [e22, e12, e0.2]

/-- Helper: a successful construction has the requested dimensions. -/
theorem new_dims {w h : Nat} {sim : Simulation}
    (hn : Simulation.new w h = some sim) :
    sim.width = w ∧ sim.height = h := by
  unfold Simulation.new at hn
  rw [Option.bind_eq_some] at hn
  obtain ⟨smoke, _, hn⟩ := hn
  obtain rfl := Option.some.inj hn
  exact ⟨rfl, rfl⟩

/-- Helper: any operation sequence from a state with constructible
dimensions runs to completion. -/
theorem runOps_isSome (w h : Nat) (hnew : (Simulation.new w h).isSome) :
    ∀ (ops : List SimOp) (sim : Simulation),
      sim.width = w → sim.height = h → (runOps sim ops).isSome := by
  intro ops
  induction ops with
  | nil =>
    intro sim _ _
    rfl
  | cons op ops' ih =>
    intro sim hw hh
    cases op with
    | step =>
      simp only [runOps]
      obtain ⟨s', hs'⟩ := Option.isSome_iff_exists.mp (step_isSome sim)
      rw [hs', Option.some_bind]
      obtain ⟨e1, e2⟩ := step_dims_eq hs'
      exact ih s' (by rw [e1, hw]) (by rw [e2, hh])
    | stamp cx cy r =>
      simp only [runOps, Option.some_bind]
      exact ih _ hw hh
    | reset =>
      simp only [runOps]
      have hres : sim.reset = Simulation.new w h := by
        unfold Simulation.reset
        rw [hw, hh]
      rw [hres]
      obtain ⟨s0, hs0⟩ := Option.isSome_iff_exists.mp hnew
      rw [hs0, Option.some_bind]
      obtain ⟨e1, e2⟩ := new_dims hs0
      exact ih s0 e1 e2
    | resetWalls =>
      simp only [runOps]
      unfold Simulation.reset_except_walls Simulation.reset
      rw [hw, hh]
      obtain ⟨s0, hs0⟩ := Option.isSome_iff_exists.mp hnew
      rw [hs0, Option.map_some', Option.some_bind]
      obtain ⟨e1, e2⟩ := new_dims hs0
      exact ih _ e1 e2

/-- Helper: a fold succeeding under a stricter body succeeds identically
under a weaker one. -/
theorem foldOption_mono {f g : α → β → Option α} {l : List β}
    (hm : ∀ a b a', b ∈ l → f a b = some a' → g a b = some a') :
    ∀ {a a' : α}, foldOption f a l = some a' → foldOption g a l = some a' := by
  induction l with
  | nil => intro a a' h; exact h
  | cons b bs ih =>
    intro a a' h
    rw [foldOption_cons] at h ⊢
    rw [Option.bind_eq_some] at h
    obtain ⟨a1, h1, h⟩ := h
    rw [hm a b a1 (List.mem_cons_self b bs) h1, Option.some_bind]
    exact ih (fun a2 c a2' hc => hm a2 c a2' (List.mem_cons_of_mem _ hc)) h

/-- Helper: iteration succeeding under a stricter body succeeds identically
under a weaker one. -/
theorem iterOption_mono {f g : α → Option α}
    (hm : ∀ a a', f a = some a' → g a = some a') :
    ∀ (n : Nat) {a a' : α}, iterOption f n a = some a' →
      iterOption g n a = some a' := by
  intro n
  induction n with
  | zero => intro a a' h; exact h
  | succ k ih =>
    intro a a' h
    rw [iterOption] at h ⊢
    rw [Option.bind_eq_some] at h
    obtain ⟨a1, h1, h⟩ := h
    rw [hm a a1 h1, Option.some_bind]
    exact ih h

namespace MarginSpec

/-- A strict probe that answered is the source probe's answer. -/
theorem sProbeStrict_some {sim : Simulation} {x y : ℤ} {v : ℚ}
    (h : sProbeStrict sim x y = some v) : sim.sProbe x y = some v := by
  unfold sProbeStrict at h
  split at h
  · exact h
  · exact Option.noConfusion h

/-- The strict probe succeeds on the claim's call region. -/
theorem sProbeStrict_isSome (sim : Simulation) (x y : ℤ)
    (hx0 : -1 ≤ x) (hx1 : x ≤ (sim.width : ℤ))
    (hy0 : -1 ≤ y) (hy1 : y ≤ (sim.height : ℤ))
    (hone : ¬((x = -1 ∨ x = (sim.width : ℤ)) ∧
      (y = -1 ∨ y = (sim.height : ℤ)))) :
    (sProbeStrict sim x y).isSome := by
  unfold sProbeStrict
  rw [if_pos ⟨⟨hx0, hx1, hy0, hy1⟩, hone⟩]
  exact Simulation.sProbe_isSome_of_margin sim x y hx0 hx1 hy0 hy1

/-- A strict `open_u` that answered matches the source `open_u`. -/
theorem open_uS_some {sim : Simulation} {x y : ℤ} {b : Bool}
    (h : open_uS sim x y = some b) : sim.open_u x y = some b := by
  unfold open_uS at h
  unfold Simulation.open_u
  rw [Option.bind_eq_some] at h
  obtain ⟨a, ha, h2⟩ := h
  rw [sProbeStrict_some ha, Option.some_bind]
  split at h2
  · next hfa =>
    rw [if_pos hfa]
    rw [Option.map_eq_some'] at h2
    obtain ⟨c, hc, rfl⟩ := h2
    rw [sProbeStrict_some hc, Option.map_some']
  · next hfa =>
    rw [if_neg hfa]
    exact h2

/-- A strict `open_v` that answered matches the source `open_v`. -/
theorem open_vS_some {sim : Simulation} {x y : ℤ} {b : Bool}
    (h : open_vS sim x y = some b) : sim.open_v x y = some b := by
  unfold open_vS at h
  unfold Simulation.open_v
  rw [Option.bind_eq_some] at h
  obtain ⟨a, ha, h2⟩ := h
  rw [sProbeStrict_some ha, Option.some_bind]
  split at h2
  · next hfa =>
    rw [if_pos hfa]
    rw [Option.map_eq_some'] at h2
    obtain ⟨c, hc, rfl⟩ := h2
    rw [sProbeStrict_some hc, Option.map_some']
  · next hfa =>
    rw [if_neg hfa]
    exact h2

/-- The strict `open_u` succeeds at every u-advection call site: the face
column is interior, so neither probe touches an x-margin. -/
theorem open_uS_isSome (sim : Simulation) (x y : ℤ)
    (h1 : 1 ≤ x) (h2 : x < (sim.width : ℤ))
    (h3 : 0 ≤ y) (h4 : y ≤ (sim.height : ℤ)) :
    (open_uS sim x y).isSome := by
  unfold open_uS
  obtain ⟨a, ha⟩ := Option.isSome_iff_exists.mp
    (sProbeStrict_isSome sim x y (by omega) (by omega) (by omega) h4
      (by omega))
  rw [ha, Option.some_bind]
  split
  · obtain ⟨b, hb⟩ := Option.isSome_iff_exists.mp
      (sProbeStrict_isSome sim (x - 1) y (by omega) (by omega) (by omega) h4
        (by omega))
    rw [hb]
    rfl
  · rfl

/-- The strict `open_v` succeeds at every v-advection and gravity call
site: when the x-coordinate sits on the right margin the caller guarantees
y ≥ 1, so at most one coordinate is marginal in each probe. -/
theorem open_vS_isSome (sim : Simulation) (x y : ℤ)
    (h1 : 0 ≤ x) (h2 : x ≤ (sim.width : ℤ))
    (h3 : 0 ≤ y) (h4 : y < (sim.height : ℤ))
    (h5 : x = (sim.width : ℤ) → 1 ≤ y) :
    (open_vS sim x y).isSome := by
  have hone2 : ¬((x = -1 ∨ x = (sim.width : ℤ)) ∧
      (y - 1 = -1 ∨ y - 1 = (sim.height : ℤ))) := by
    by_cases hxw : x = (sim.width : ℤ)
    · have := h5 hxw
      omega
    · omega
  unfold open_vS
  obtain ⟨a, ha⟩ := Option.isSome_iff_exists.mp
    (sProbeStrict_isSome sim x y (by omega) h2 (by omega) (by omega)
      (by omega))
  rw [ha, Option.some_bind]
  split
  · obtain ⟨b, hb⟩ := Option.isSome_iff_exists.mp
      (sProbeStrict_isSome sim x (y - 1) (by omega) h2 (by omega) (by omega)
        hone2)
    rw [hb]
    rfl
  · rfl

/-- The strict projection cell action succeeds on every in-range cell: each
of the four neighbor probes has its other coordinate strictly in bounds. -/
theorem cellProjectS_isSome (sim : Simulation) (dt : ℚ) (x y : Nat)
    (hx : x < sim.width) (hy : y < sim.height) :
    (cellProjectS sim dt x y).isSome := by
  unfold cellProjectS
  split
  · rfl
  · obtain ⟨s1, h1⟩ := Option.isSome_iff_exists.mp
      (sProbeStrict_isSome sim ((x : ℤ) - 1) (y : ℤ)
        (by omega) (by omega) (by omega) (by omega) (by omega))
    obtain ⟨s2, h2⟩ := Option.isSome_iff_exists.mp
      (sProbeStrict_isSome sim ((x : ℤ) + 1) (y : ℤ)
        (by omega) (by omega) (by omega) (by omega) (by omega))
    obtain ⟨s3, h3⟩ := Option.isSome_iff_exists.mp
      (sProbeStrict_isSome sim (x : ℤ) ((y : ℤ) - 1)
        (by omega) (by omega) (by omega) (by omega) (by omega))
    obtain ⟨s4, h4⟩ := Option.isSome_iff_exists.mp
      (sProbeStrict_isSome sim (x : ℤ) ((y : ℤ) + 1)
        (by omega) (by omega) (by omega) (by omega) (by omega))
    rw [h1, h2, h3, h4]
    simp only [Option.some_bind]
    split
    · rfl
    · rfl

/-- A strict projection cell action that answered matches the source one. -/
theorem cellProjectS_some {sim sim' : Simulation} {dt : ℚ} {x y : Nat}
    (h : cellProjectS sim dt x y = some sim') :
    sim.cellProject dt x y = some sim' := by
  unfold cellProjectS at h
  unfold Simulation.cellProject
  by_cases hf : sim.s.get x y ≠ FLUID
  · rw [if_pos hf] at h ⊢
    exact h
  · rw [if_neg hf] at h ⊢
    dsimp only at h ⊢
    rw [Option.bind_eq_some] at h
    obtain ⟨s1, h1, h⟩ := h
    rw [sProbeStrict_some h1, Option.some_bind]
    rw [Option.bind_eq_some] at h
    obtain ⟨s2, h2, h⟩ := h
    rw [sProbeStrict_some h2, Option.some_bind]
    rw [Option.bind_eq_some] at h
    obtain ⟨s3, h3, h⟩ := h
    rw [sProbeStrict_some h3, Option.some_bind]
    rw [Option.bind_eq_some] at h
    obtain ⟨s4, h4, h⟩ := h
    rw [sProbeStrict_some h4, Option.some_bind]
    exact h

/-- The strict projection cell action keeps the grid dimensions. -/
theorem cellProjectS_dims_eq {sim sim' : Simulation} {dt : ℚ} {x y : Nat}
    (h : cellProjectS sim dt x y = some sim') :
    sim'.width = sim.width ∧ sim'.height = sim.height :=
  Simulation.cellProject_dims_eq (cellProjectS_some h)

end MarginSpec

namespace MarginSpec

/-- The strict sweep succeeds on any state. -/
theorem sweepS_isSome (sim : Simulation) (dt : ℚ) : (sweepS sim dt).isSome := by
  unfold sweepS
  refine foldOption_isSome_inv
    (P := fun t : Simulation => t.width = sim.width ∧ t.height = sim.height)
    ⟨rfl, rfl⟩ ?_ ?_
  · intro acc y acc' hy hacc hstep
    refine foldOption_preserve
      (P := fun t : Simulation => t.width = sim.width ∧ t.height = sim.height)
      hstep hacc ?_
    intro acc2 x acc2' hx hacc2 hcell
    obtain ⟨e1, e2⟩ := cellProjectS_dims_eq hcell
    rw [e1, e2, hacc2.1, hacc2.2]
    exact ⟨rfl, rfl⟩
  · intro acc y hy hacc
    refine foldOption_isSome_inv
      (P := fun t : Simulation => t.width = sim.width ∧ t.height = sim.height)
      hacc ?_ ?_
    · intro acc2 x acc2' hx hacc2 hcell
      obtain ⟨e1, e2⟩ := cellProjectS_dims_eq hcell
      rw [e1, e2, hacc2.1, hacc2.2]
      exact ⟨rfl, rfl⟩
    · intro acc2 x hx hacc2
      exact cellProjectS_isSome acc2 dt x y
        (by rw [hacc2.1]; exact List.mem_range.mp hx)
        (by rw [hacc2.2]; exact List.mem_range.mp hy)

/-- A strict sweep that answered matches the source sweep. -/
theorem sweepS_some {sim sim' : Simulation} {dt : ℚ}
    (h : sweepS sim dt = some sim') : sim.sweep dt = some sim' := by
  unfold sweepS at h
  unfold Simulation.sweep
  refine foldOption_mono ?_ h
  intro a y a' hy hrow
  refine foldOption_mono ?_ hrow
  intro a2 x a2' hx hcell
  exact cellProjectS_some hcell

/-- The strict projection pass succeeds on any state. -/
theorem projectionS_isSome (sim : Simulation) (dt : ℚ) :
    (projectionS sim dt).isSome := by
  unfold projectionS
  exact iterOption_isSome (fun sm => sweepS_isSome sm dt) NUM_PROJ_ITERATIONS _

/-- A strict projection pass that answered matches the source pass. -/
theorem projectionS_some {sim sim' : Simulation} {dt : ℚ}
    (h : projectionS sim dt = some sim') : sim.projection dt = some sim' := by
  unfold projectionS at h
  unfold Simulation.projection
  exact iterOption_mono (fun a a' hstep => sweepS_some hstep)
    NUM_PROJ_ITERATIONS h

/-- The strict gravity pass succeeds on any state. -/
theorem gravitationS_isSome (sim : Simulation) (dt : ℚ) :
    (gravitationS sim dt).isSome := by
  unfold gravitationS
  rw [Option.isSome_map']
  refine foldOption_isSome ?_
  intro a y hy
  refine foldOption_isSome ?_
  intro a2 x hx
  rw [Option.isSome_map']
  exact open_vS_isSome sim (x : ℤ) (y : ℤ)
    (by omega)
    (by have := List.mem_range.mp hx; omega)
    (by omega)
    (by have := List.mem_range.mp hy; omega)
    (by have := List.mem_range.mp hx; omega)

/-- A strict gravity pass that answered matches the source pass. -/
theorem gravitationS_some {sim sim' : Simulation} {dt : ℚ}
    (h : gravitationS sim dt = some sim') : sim.gravitation dt = some sim' := by
  unfold gravitationS at h
  unfold Simulation.gravitation
  rw [Option.map_eq_some'] at h ⊢
  obtain ⟨v', hv', rfl⟩ := h
  refine ⟨v', ?_, rfl⟩
  refine foldOption_mono ?_ hv'
  intro a y a' hy hrow
  refine foldOption_mono ?_ hrow
  intro a2 x a2' hx hcell
  rw [Option.map_eq_some'] at hcell ⊢
  obtain ⟨b, hb, rfl⟩ := hcell
  exact ⟨b, open_vS_some hb, rfl⟩

/-- The strict advection cell action succeeds at every loop position. -/
theorem advCellS_isSome (sim : Simulation) (dt : ℚ) (st : Array2D × Array2D)
    (i j : Nat) (hi : i ≤ sim.width) (hj : j ≤ sim.height) :
    (advCellS sim dt st i j).isSome := by
  unfold advCellS
  split
  · next hc =>
    obtain ⟨b, hb⟩ := Option.isSome_iff_exists.mp
      (open_uS_isSome sim (i : ℤ) (j : ℤ) (by omega) (by omega) (by omega)
        (by omega))
    rw [hb]
    simp only [Option.map_some', Option.some_bind]
    split
    · next hc2 =>
      obtain ⟨b2, hb2⟩ := Option.isSome_iff_exists.mp
        (open_vS_isSome sim (i : ℤ) (j : ℤ) (by omega) (by omega) (by omega)
          (by omega) (by omega))
      rw [hb2]
      simp only [Option.map_some', Option.some_bind]
      rfl
    · rfl
  · simp only [Option.some_bind]
    split
    · next hc2 =>
      obtain ⟨b2, hb2⟩ := Option.isSome_iff_exists.mp
        (open_vS_isSome sim (i : ℤ) (j : ℤ) (by omega) (by omega) (by omega)
          (by omega) (by omega))
      rw [hb2]
      simp only [Option.map_some', Option.some_bind]
      rfl
    · rfl

/-- A strict advection cell action that answered matches the source one. -/
theorem advCellS_some {sim : Simulation} {dt : ℚ} {st st' : Array2D × Array2D}
    {i j : Nat} (h : advCellS sim dt st i j = some st') :
    sim.advCell dt st i j = some st' := by
  unfold advCellS at h
  unfold Simulation.advCell
  rw [Option.bind_eq_some] at h
  obtain ⟨nu, hnu, h⟩ := h
  rw [Option.bind_eq_some] at h
  obtain ⟨nv, hnv, h⟩ := h
  have hnu' : (if 1 ≤ i ∧ i < sim.width then
      (sim.open_u (i : ℤ) (j : ℤ)).map fun b =>
        if b then
          let x := (i : ℚ) * H
          let y := (j : ℚ) * H + (1 / 2) * H
          let uu := st.1.get i j
          let vv := sim.avg_v i j
          st.1.set i j (sim.sample_u (x - dt * uu) (y - dt * vv))
        else st.1
    else some st.1) = some nu := by
    split at hnu
    · next hc =>
      rw [if_pos hc]
      rw [Option.map_eq_some'] at hnu ⊢
      obtain ⟨b, hb, rfl⟩ := hnu
      exact ⟨b, open_uS_some hb, rfl⟩
    · next hc =>
      rw [if_neg hc]
      exact hnu
  have hnv' : (if 1 ≤ j ∧ j < sim.height then
      (sim.open_v (i : ℤ) (j : ℤ)).map fun b =>
        if b then
          let x := (i : ℚ) * H + (1 / 2) * H
          let y := (j : ℚ) * H
          let vv := st.2.get i j
          let uu := sim.avg_u i j
          st.2.set i j (sim.sample_v (x - dt * uu) (y - dt * vv))
        else st.2
    else some st.2) = some nv := by
    split at hnv
    · next hc =>
      rw [if_pos hc]
      rw [Option.map_eq_some'] at hnv ⊢
      obtain ⟨b, hb, rfl⟩ := hnv
      exact ⟨b, open_vS_some hb, rfl⟩
    · next hc =>
      rw [if_neg hc]
      exact hnv
  rw [hnu', Option.some_bind, hnv', Option.some_bind]
  exact h

/-- The strict velocity advection pass succeeds on any state. -/
theorem advectionS_isSome (sim : Simulation) (dt : ℚ) :
    (advectionS sim dt).isSome := by
  unfold advectionS
  rw [Option.isSome_map']
  refine foldOption_isSome ?_
  intro st j hj
  refine foldOption_isSome ?_
  intro st2 i hi
  exact advCellS_isSome sim dt st2 i j
    (by have := List.mem_range.mp hi; omega)
    (by have := List.mem_range.mp hj; omega)

/-- A strict velocity advection pass that answered matches the source. -/
theorem advectionS_some {sim sim' : Simulation} {dt : ℚ}
    (h : advectionS sim dt = some sim') : sim.advection dt = some sim' := by
  unfold advectionS at h
  unfold Simulation.advection
  rw [Option.map_eq_some'] at h ⊢
  obtain ⟨st, hst, rfl⟩ := h
  refine ⟨st, ?_, rfl⟩
  refine foldOption_mono ?_ hst
  intro a j a' hj hrow
  refine foldOption_mono ?_ hrow
  intro a2 i a2' hi hcell
  exact advCellS_some hcell

/-- The strict step succeeds on any state. -/
theorem stepS_isSome (sim : Simulation) : (stepS sim).isSome := by
  unfold stepS
  have h0 : (if WITH_GRAVITY then gravitationS sim DT else some sim).isSome := by
    split
    · exact gravitationS_isSome sim DT
    · rfl
  obtain ⟨s0, h0'⟩ := Option.isSome_iff_exists.mp h0
  rw [h0', Option.some_bind]
  obtain ⟨s1, h1'⟩ := Option.isSome_iff_exists.mp (projectionS_isSome s0 DT)
  rw [h1', Option.some_bind]
  obtain ⟨s2, h2'⟩ := Option.isSome_iff_exists.mp (advectionS_isSome s1 DT)
  rw [h2', Option.some_bind]
  rfl

/-- A strict step that answered matches the source step. -/
theorem stepS_some {sim sim' : Simulation} (h : stepS sim = some sim') :
    sim.step = some sim' := by
  unfold stepS at h
  unfold Simulation.step
  rw [Option.bind_eq_some] at h
  obtain ⟨s0, hs0, h⟩ := h
  have hs0' : (if WITH_GRAVITY then sim.gravitation DT else some sim) =
      some s0 := by
    split at hs0
    · next hg =>
      rw [if_pos hg]
      exact gravitationS_some hs0
    · next hg =>
      rw [if_neg hg]
      exact hs0
  rw [hs0', Option.some_bind]
  rw [Option.bind_eq_some] at h
  obtain ⟨s1, hs1, h⟩ := h
  rw [projectionS_some hs1, Option.some_bind]
  rw [Option.bind_eq_some] at h
  obtain ⟨s2, hs2, h⟩ := h
  rw [advectionS_some hs2, Option.some_bind]
  exact h

/-- A strict run that answered matches the source run. -/
theorem runOpsS_some : ∀ (ops : List SimOp) {sim sim' : Simulation},
    runOpsS sim ops = some sim' → runOps sim ops = some sim' := by
  intro ops
  induction ops with
  | nil => intro sim sim' h; exact h
  | cons op ops' ih =>
    intro sim sim' h
    cases op with
    | step =>
      simp only [runOpsS] at h
      simp only [runOps]
      rw [Option.bind_eq_some] at h
      obtain ⟨s0, hs0, h⟩ := h
      rw [stepS_some hs0, Option.some_bind]
      exact ih h
    | stamp cx cy r =>
      simp only [runOpsS] at h
      simp only [runOps]
      rw [Option.some_bind] at h ⊢
      exact ih h
    | reset =>
      simp only [runOpsS] at h
      simp only [runOps]
      rw [Option.bind_eq_some] at h
      obtain ⟨s0, hs0, h⟩ := h
      rw [hs0, Option.some_bind]
      exact ih h
    | resetWalls =>
      simp only [runOpsS] at h
      simp only [runOps]
      rw [Option.bind_eq_some] at h
      obtain ⟨s0, hs0, h⟩ := h
      rw [hs0, Option.some_bind]
      exact ih h

/-- The strict step keeps the grid dimensions. -/
theorem stepS_dims_eq {sim sim' : Simulation} (h : stepS sim = some sim') :
    sim'.width = sim.width ∧ sim'.height = sim.height :=
  step_dims_eq (stepS_some h)

/-- The strict run succeeds from any state whose dimensions admit
construction. -/
theorem runOpsS_isSome (w h : Nat) (hnew : (Simulation.new w h).isSome) :
    ∀ (ops : List SimOp) (sim : Simulation),
      sim.width = w → sim.height = h → (runOpsS sim ops).isSome := by
  intro ops
  induction ops with
  | nil =>
    intro sim _ _
    rfl
  | cons op ops' ih =>
    intro sim hw hh
    cases op with
    | step =>
      simp only [runOpsS]
      obtain ⟨s', hs'⟩ := Option.isSome_iff_exists.mp (stepS_isSome sim)
      rw [hs', Option.some_bind]
      obtain ⟨e1, e2⟩ := stepS_dims_eq hs'
      exact ih s' (by rw [e1, hw]) (by rw [e2, hh])
    | stamp cx cy r =>
      simp only [runOpsS, Option.some_bind]
      exact ih _ hw hh
    | reset =>
      simp only [runOpsS]
      have hres : sim.reset = Simulation.new w h := by
        unfold Simulation.reset
        rw [hw, hh]
      rw [hres]
      obtain ⟨s0, hs0⟩ := Option.isSome_iff_exists.mp hnew
      rw [hs0, Option.some_bind]
      obtain ⟨e1, e2⟩ := new_dims hs0
      exact ih s0 e1 e2
    | resetWalls =>
      simp only [runOpsS]
      unfold Simulation.reset_except_walls Simulation.reset
      rw [hw, hh]
      obtain ⟨s0, hs0⟩ := Option.isSome_iff_exists.mp hnew
      rw [hs0, Option.map_some', Option.some_bind]
      obtain ⟨e1, e2⟩ := new_dims hs0
      exact ih _ e1 e2

end MarginSpec

/-- C6: from any valid construction, no sequence of the public operations
(step, stamp_obstacle, reset, reset_except_walls) can reach the
classification probe's fatal panic branch, and every internal probe keeps
both coordinates inside the one-cell margin [-1, width] × [-1, height] with
at most one coordinate on the margin: the instrumented run `runOpsS`, whose
probe refuses any call outside that region, succeeds and coincides with the
source run. -/
theorem c6_no_panic_reachable (w h : Nat) (sim : Simulation)
    (h0 : Simulation.new w h = some sim) (ops : List SimOp) :
    (MarginSpec.runOpsS sim ops).isSome ∧
      MarginSpec.runOpsS sim ops = runOps sim ops := by
  have hs := MarginSpec.runOpsS_isSome w h (by rw [h0]; rfl) ops sim
    (new_dims h0).1 (new_dims h0).2
  obtain ⟨s', hs'⟩ := Option.isSome_iff_exists.mp hs
  constructor
  · rw [hs']
    rfl
  · rw [hs', MarginSpec.runOpsS_some ops hs']

/-- Witness for C6: the smallest constructible column grid (1 × 73) runs a
step, an obstacle stamp, both resets and another step without panicking,
with every classification probe inside the claimed margin region. -/
theorem c6_witness :
    Simulation.new 1 73 = some sim73 ∧
    (MarginSpec.runOpsS sim73 [SimOp.step, SimOp.stamp 0 5 2,
      SimOp.resetWalls, SimOp.reset, SimOp.step]).isSome ∧
    MarginSpec.runOpsS sim73 [SimOp.step, SimOp.stamp 0 5 2,
      SimOp.resetWalls, SimOp.reset, SimOp.step] =
      runOps sim73 [SimOp.step, SimOp.stamp 0 5 2, SimOp.resetWalls,
        SimOp.reset, SimOp.step] :=
  have h : Simulation.new 1 73 = some sim73 := by with_unfolding_all rfl
  have h2 := c6_no_panic_reachable 1 73 sim73 h
    [SimOp.step, SimOp.stamp 0 5 2, SimOp.resetWalls, SimOp.reset, SimOp.step]
  ⟨h, h2.1, h2.2⟩

/-- Witness for C10: one concrete step from `sim1`. -/
theorem c10_witness :
    Simulation.step sim1 = some stepSim1 ∧ stepSim1.s = sim1.s :=
  have h : Simulation.step sim1 = some stepSim1 := by with_unfolding_all rfl
  ⟨h, c10_step_preserves_s sim1 stepSim1 h⟩

end Eulr
